import Mathlib

/-! git-project-creator: a shallow embedding of `projectcreator.go`.

The Go package `gpc` is embedded as pure Lean functions over an explicit
`World` (filesystem tree, unread standard input, log of external interactions).
Everything the package obtains from outside itself (the JSON and YAML decoders,
`path/filepath`, `text/template`, `net/http`, `os/exec`, the `gorecurcopy`
package) is a field of `Env`, so every theorem holds for all behaviours of
those collaborators.
-/

namespace Gpc

/-! ## Data model -/

/-- Go `interface{}` values as the decoders produce them: scalars, sequences and
mappings (keyed by strings for JSON, by arbitrary values for YAML).  A `str` is
a Go `string`, a `float` a `float64` identified by its decimal digits. -/
inductive Value where
  | null : Value
  | bool (b : Bool) : Value
  | int (i : Int) : Value
  | float (digits : String) : Value
  | str (s : String) : Value
  | list (items : List Value) : Value
  | dict (entries : List (Value × Value)) : Value

/-- Go `error` values.  `SkipDir` is the sentinel `filepath.SkipDir`; every
other error is identified by its message. -/
inductive GoError where
  | SkipDir : GoError
  | errorString (msg : String) : GoError
  deriving DecidableEq, Repr

mutual
/-- Equality of values is decidable. -/
def Value.decEq : (a b : Value) → Decidable (a = b)
  | .null, .null => isTrue rfl
  | .bool a, .bool b =>
    if h : a = b then isTrue (by rw [h]) else isFalse (by intro e; cases e; exact h rfl)
  | .int a, .int b =>
    if h : a = b then isTrue (by rw [h]) else isFalse (by intro e; cases e; exact h rfl)
  | .float a, .float b =>
    if h : a = b then isTrue (by rw [h]) else isFalse (by intro e; cases e; exact h rfl)
  | .str a, .str b =>
    if h : a = b then isTrue (by rw [h]) else isFalse (by intro e; cases e; exact h rfl)
  | .list a, .list b =>
    match Value.decEqList a b with
    | isTrue h => isTrue (by rw [h])
    | isFalse h => isFalse (by intro e; cases e; exact h rfl)
  | .dict a, .dict b =>
    match Value.decEqDict a b with
    | isTrue h => isTrue (by rw [h])
    | isFalse h => isFalse (by intro e; cases e; exact h rfl)
  | .null, .bool _ => isFalse (by intro e; cases e)
  | .null, .int _ => isFalse (by intro e; cases e)
  | .null, .float _ => isFalse (by intro e; cases e)
  | .null, .str _ => isFalse (by intro e; cases e)
  | .null, .list _ => isFalse (by intro e; cases e)
  | .null, .dict _ => isFalse (by intro e; cases e)
  | .bool _, .null => isFalse (by intro e; cases e)
  | .bool _, .int _ => isFalse (by intro e; cases e)
  | .bool _, .float _ => isFalse (by intro e; cases e)
  | .bool _, .str _ => isFalse (by intro e; cases e)
  | .bool _, .list _ => isFalse (by intro e; cases e)
  | .bool _, .dict _ => isFalse (by intro e; cases e)
  | .int _, .null => isFalse (by intro e; cases e)
  | .int _, .bool _ => isFalse (by intro e; cases e)
  | .int _, .float _ => isFalse (by intro e; cases e)
  | .int _, .str _ => isFalse (by intro e; cases e)
  | .int _, .list _ => isFalse (by intro e; cases e)
  | .int _, .dict _ => isFalse (by intro e; cases e)
  | .float _, .null => isFalse (by intro e; cases e)
  | .float _, .bool _ => isFalse (by intro e; cases e)
  | .float _, .int _ => isFalse (by intro e; cases e)
  | .float _, .str _ => isFalse (by intro e; cases e)
  | .float _, .list _ => isFalse (by intro e; cases e)
  | .float _, .dict _ => isFalse (by intro e; cases e)
  | .str _, .null => isFalse (by intro e; cases e)
  | .str _, .bool _ => isFalse (by intro e; cases e)
  | .str _, .int _ => isFalse (by intro e; cases e)
  | .str _, .float _ => isFalse (by intro e; cases e)
  | .str _, .list _ => isFalse (by intro e; cases e)
  | .str _, .dict _ => isFalse (by intro e; cases e)
  | .list _, .null => isFalse (by intro e; cases e)
  | .list _, .bool _ => isFalse (by intro e; cases e)
  | .list _, .int _ => isFalse (by intro e; cases e)
  | .list _, .float _ => isFalse (by intro e; cases e)
  | .list _, .str _ => isFalse (by intro e; cases e)
  | .list _, .dict _ => isFalse (by intro e; cases e)
  | .dict _, .null => isFalse (by intro e; cases e)
  | .dict _, .bool _ => isFalse (by intro e; cases e)
  | .dict _, .int _ => isFalse (by intro e; cases e)
  | .dict _, .float _ => isFalse (by intro e; cases e)
  | .dict _, .str _ => isFalse (by intro e; cases e)
  | .dict _, .list _ => isFalse (by intro e; cases e)
/-- Equality of lists of values is decidable. -/
def Value.decEqList : (a b : List Value) → Decidable (a = b)
  | [], [] => isTrue rfl
  | [], _ :: _ => isFalse (by intro e; cases e)
  | _ :: _, [] => isFalse (by intro e; cases e)
  | x :: a, y :: b =>
    match Value.decEq x y with
    | isTrue hx =>
      match Value.decEqList a b with
      | isTrue h => isTrue (by rw [hx, h])
      | isFalse h => isFalse (by intro e; cases e; exact h rfl)
    | isFalse hx => isFalse (by intro e; cases e; exact hx rfl)
/-- Equality of keyed lists of values is decidable. -/
def Value.decEqDict : (a b : List (Value × Value)) → Decidable (a = b)
  | [], [] => isTrue rfl
  | [], _ :: _ => isFalse (by intro e; cases e)
  | _ :: _, [] => isFalse (by intro e; cases e)
  | (k, x) :: a, (l, y) :: b =>
    match Value.decEq k l with
    | isTrue hk =>
      match Value.decEq x y with
      | isTrue hx =>
        match Value.decEqDict a b with
        | isTrue h => isTrue (by rw [hk, hx, h])
        | isFalse h => isFalse (by intro e; cases e; exact h rfl)
      | isFalse hx => isFalse (by intro e; cases e; exact hx rfl)
    | isFalse hk => isFalse (by intro e; cases e; exact hk rfl)
end

instance : DecidableEq Value := Value.decEq

/-- Go `map[string]interface{}`; the nil map and the empty map are both `[]`
(the package only reads nil maps). -/
abbrev GoMap := List (String × Value)

/-- The two-result index expression `val, ok := m[key]`. -/
def GoMap.get (m : GoMap) (key : String) : Option Value :=
  match m with
  | [] => none
  | (k, v) :: rest => if k = key then some v else GoMap.get rest key

/-- The assignment `m[key] = val`: the key is bound to `val` alone. -/
def GoMap.set (m : GoMap) (key : String) (val : Value) : GoMap :=
  (key, val) :: m.filter (fun e => !decide (e.1 = key))

/-- The key set of a map. -/
def GoMap.keys (m : GoMap) : List String := m.map Prod.fst

/-- `Variables` (projectcreator.go:20). -/
structure Variables where
  Name : String
  Description : String
  Default : Value
  deriving DecidableEq

/-- `TemplateConfig` (projectcreator.go:27). -/
structure TemplateConfig where
  Templates : List String
  Variables : List Variables
  deriving DecidableEq

/-- `GitRepository` (projectcreator.go:32). -/
structure GitRepository where
  URL : String
  Branch : String
  Tag : String
  Commit : String
  deriving DecidableEq

/-- `ProjectCreator` (projectcreator.go:39). -/
structure ProjectCreator where
  Prompt : Bool
  GitRepository : GitRepository
  ExistingDir : String
  DownloadURL : String
  Data : GoMap
  DestDir : String
  Overwrite : Bool
  deriving DecidableEq

/-! ## Standard input: `fmt.Scanln(&input)` with one string operand -/

/-- Go `fmt.isSpace`: the white-space table of package `fmt`. -/
def isSpace (r : Char) : Bool :=
  let n := r.toNat
  (0x0009 ≤ n && n ≤ 0x000d) || n == 0x0020 || n == 0x0085 || n == 0x00a0 ||
  n == 0x1680 || (0x2000 ≤ n && n ≤ 0x200a) || n == 0x2028 || n == 0x2029 ||
  n == 0x202f || n == 0x205f || n == 0x3000

/-- Go `(*ss).SkipSpace` with `nlIsSpace = false`: skips white space; a newline
is consumed and reported (`true`, "unexpected newline"). -/
def SkipSpace : List Char → List Char × Bool
  | [] => ([], false)
  | r :: rest =>
    if r = Char.ofNat 10 then (rest, true)
    else if isSpace r then SkipSpace rest
    else (r :: rest, false)

/-- The end-of-operands check of `(*ss).doScan` when `nlIsEnd` holds: reads up
to and including the newline; a rune that is not white space is consumed and
ends the check ("expected newline"). -/
def expectNewline : List Char → List Char
  | [] => []
  | r :: rest =>
    if r = Char.ofNat 10 then rest
    else if isSpace r then expectNewline rest
    else rest

/-- The call `fmt.Scanln(&input)` on an `input` that holds `""`: the string left
in `input` and the unread rest of standard input.  The error result is dropped,
as in the source.  Standard input is read rune by rune, nothing is buffered
between calls. -/
def Scanln (stdin : List Char) : String × List Char :=
  match SkipSpace stdin with
  | (rest, true) => ("", rest)
  | ([], false) => ("", [])
  | (rest, false) =>
    (String.mk (rest.takeWhile (fun r => !isSpace r)),
     expectNewline (rest.dropWhile (fun r => !isSpace r)))

/-! ## The filesystem, the world and the external collaborators -/

/-- A directory tree of regular files and directories, without symbolic or hard
links, in which every directory can be listed: a file holds its content, a
directory lists its entries by name in the order `readDirNames` yields them. -/
inductive Node where
  | file (content : String) : Node
  | dir (entries : List (String × Node)) : Node

mutual
/-- Equality of trees is decidable. -/
def Node.decEq : (a b : Node) → Decidable (a = b)
  | .file a, .file b =>
    if h : a = b then isTrue (by rw [h]) else isFalse (by intro e; cases e; exact h rfl)
  | .dir a, .dir b =>
    match Node.decEqEntries a b with
    | isTrue h => isTrue (by rw [h])
    | isFalse h => isFalse (by intro e; cases e; exact h rfl)
  | .file _, .dir _ => isFalse (by intro e; cases e)
  | .dir _, .file _ => isFalse (by intro e; cases e)
/-- Equality of directory listings is decidable. -/
def Node.decEqEntries : (a b : List (String × Node)) → Decidable (a = b)
  | [], [] => isTrue rfl
  | [], _ :: _ => isFalse (by intro e; cases e)
  | _ :: _, [] => isFalse (by intro e; cases e)
  | (k, x) :: a, (l, y) :: b =>
    if hk : k = l then
      match Node.decEq x y with
      | isTrue hx =>
        match Node.decEqEntries a b with
        | isTrue h => isTrue (by rw [hk, hx, h])
        | isFalse h => isFalse (by intro e; cases e; exact h rfl)
      | isFalse hx => isFalse (by intro e; cases e; exact hx rfl)
    else isFalse (by intro e; cases e; exact hk rfl)
end

instance : DecidableEq Node := Node.decEq

mutual
/-- The node found by descending from a node along entry names. -/
def Node.get : Node → List String → Option Node
  | n, [] => some n
  | .file _, _ :: _ => none
  | .dir es, name :: rest => Node.getEntries es name rest
/-- The descent of `Node.get` inside a directory listing. -/
def Node.getEntries : List (String × Node) → String → List String → Option Node
  | [], _, _ => none
  | (k, n) :: es, name, rest =>
    if k = name then Node.get n rest else Node.getEntries es name rest
end

mutual
/-- The tree with the node at the end of a descent replaced; a descent that
leads nowhere leaves the tree as it is. -/
def Node.put : Node → List String → Node → Node
  | _, [], new => new
  | .file c, _ :: _, _ => .file c
  | .dir es, name :: rest, new => .dir (Node.putEntries es name rest new)
/-- The replacement of `Node.put` inside a directory listing. -/
def Node.putEntries :
    List (String × Node) → String → List String → Node → List (String × Node)
  | [], _, _, _ => []
  | (k, n) :: es, name, rest, new =>
    if k = name then (k, Node.put n rest new) :: es
    else (k, n) :: Node.putEntries es name rest new
end

/-- Go `FileInfo.IsDir`. -/
def Node.IsDir : Node → Bool
  | .file _ => false
  | .dir _ => true

/-- One interaction of the program with the user, the network, an external
process or a directory-level operation of the operating system, with the
arguments of the call.  `printVariable` is the `fmt.Printf` of line 100, which
prints the description and default of the variable it carries. -/
inductive Event where
  | printOverwrite (destDir : String) : Event
  | printVariable (decl : Variables) : Event
  | scanln (input : String) : Event
  | run (argv : List String) : Event
  | copyDirectory (src dst : String) (excluded : List String) : Event
  | tempDir : Event
  | removeAll (path : String) : Event
  | httpGet (url : String) : Event
  | create (filename : String) : Event
  | copy (filename : String) : Event
  | mkdirAll (path : String) : Event
  deriving DecidableEq

/-- The state outside the program: the filesystem, the unread part of standard
input and the interactions so far, oldest first. -/
structure World where
  fs : Node
  stdin : List Char
  log : List Event
  deriving DecidableEq

/-- The world after one more interaction. -/
def World.emit (w : World) (e : Event) : World :=
  { fs := w.fs, stdin := w.stdin, log := w.log ++ [e] }

/-- The world with another filesystem. -/
def World.withFs (w : World) (fs : Node) : World :=
  { fs := fs, stdin := w.stdin, log := w.log }

/-- An `*http.Response` as far as the package reads it. -/
structure Response where
  ContentType : String
  Body : String

/-- Everything the package calls that is not its own code.  Decoders take the
target they decode into and return it with the error; operations on the
filesystem return the new tree with the error. -/
structure Env where
  /-- `json.Unmarshal([]byte(s), &m)`. -/
  jsonUnmarshal : String → GoMap → GoMap × Option GoError
  /-- `yaml.Unmarshal([]byte(s), &m)` into a map. -/
  yamlUnmarshal : String → GoMap → GoMap × Option GoError
  /-- `yaml.Unmarshal(data, &config)` into a zero `TemplateConfig`. -/
  yamlUnmarshalConfig : String → TemplateConfig × Option GoError
  /-- `filepath.Join` of two elements. -/
  Join : String → String → String
  /-- `filepath.Match(pattern, name)`, first result. -/
  Match : String → String → Bool
  /-- The entry names that lead from the root of the tree to a path; `none`
  for a path the operating system rejects. -/
  lookupPath : String → Option (List String)
  /-- `FileInfo.Name` of `os.Lstat(path)`. -/
  Base : String → String
  /-- A failure of `ioutil.ReadFile` on an existing regular file. -/
  readError : String → Option GoError
  /-- A failure of `os.Create` on an existing regular file. -/
  createError : String → Option GoError
  /-- `ioutil.TempDir("", "template")`. -/
  TempDir : Node → Except GoError (String × Node)
  /-- `os.RemoveAll`. -/
  RemoveAll : String → Node → Node
  /-- `os.Create` of the staging file. -/
  Create : String → Node → Node × Option GoError
  /-- `io.Copy(out, resp.Body)` into the staging file. -/
  Copy : String → String → Node → Node × Option GoError
  /-- `os.MkdirAll(path, 0755)`. -/
  MkdirAll : String → Node → Node × Option GoError
  /-- `http.Get`. -/
  Get : String → Except GoError Response
  /-- `exec.Command(argv[0], argv[1:]...).Run()`. -/
  Run : List String → Node → Node × Option GoError
  /-- `gorecurcopy.CopyDirectory(src, dst, excluded)`. -/
  CopyDirectory : String → String → List String → Node → Node × Option GoError
  /-- `template.New(name).Parse(content)`: the error, if any. -/
  Parse : String → String → Option GoError
  /-- `tmpl.Execute(newFile, variables)`: what was written and the error. -/
  Execute : String → String → GoMap → String × Option GoError

/-- Go `os.Stat` on the tree: the node a path names, if any. -/
def Stat (env : Env) (fs : Node) (path : String) : Option Node :=
  match env.lookupPath path with
  | none => none
  | some names => fs.get names

/-- Go `ioutil.ReadFile` on the tree. -/
def ReadFile (env : Env) (fs : Node) (path : String) : Except GoError String :=
  match Stat env fs path with
  | none => .error (.errorString ("open " ++ path ++ ": no such file or directory"))
  | some (.dir _) => .error (.errorString ("read " ++ path ++ ": is a directory"))
  | some (.file content) =>
    match env.readError path with
    | some err => .error err
    | none => .ok content

/-- Go `strings.HasSuffix`. -/
def HasSuffix (s suffix : String) : Bool :=
  suffix.toList.isSuffixOf s.toList

/-! ## The package -/

/-- `parseData` (projectcreator.go:326): the map and the error it returns. -/
def parseData (env : Env) (varsStr : String) : GoMap × Option GoError :=
  let varsMap : GoMap := []
  let j := env.jsonUnmarshal varsStr varsMap
  match j.2 with
  | some _ =>
    let y := env.yamlUnmarshal varsStr j.1
    match y.2 with
    | some err => ([], some err)
    | none => (y.1, none)
  | none => (j.1, none)

/-- `cloneRepository` (projectcreator.go:154). -/
def cloneRepository (env : Env) (pc : ProjectCreator) (w : World) :
    World × Option GoError :=
  let commands := ["git", "clone"]
  let commands :=
    if pc.GitRepository.Branch ≠ "" then
      commands ++ ["--branch", pc.GitRepository.Branch]
    else if pc.GitRepository.Tag ≠ "" then
      commands ++ ["--branch", pc.GitRepository.Tag]
    else if pc.GitRepository.Commit ≠ "" then
      commands ++ ["--branch", pc.GitRepository.Commit]
    else commands
  let commands := commands ++ [pc.GitRepository.URL, pc.DestDir]
  let r := env.Run commands w.fs
  ((w.emit (.run commands)).withFs r.1, r.2)

/-- `copyExistingDir` (projectcreator.go:142). -/
def copyExistingDir (env : Env) (pc : ProjectCreator) (w : World) :
    World × Option GoError :=
  match Stat env w.fs pc.ExistingDir with
  | none =>
    (w, some (.errorString ("stat " ++ pc.ExistingDir ++ ": no such file or directory")))
  | some _ =>
    let r := env.CopyDirectory pc.ExistingDir pc.DestDir [".git"] w.fs
    ((w.emit (.copyDirectory pc.ExistingDir pc.DestDir [".git"])).withFs r.1, r.2)

/-- The part of `downloadAndExtract` after `ioutil.TempDir` succeeded and
before the deferred `os.RemoveAll` (projectcreator.go:186-237). -/
def downloadAndExtract.staged (env : Env) (pc : ProjectCreator) (tempDir : String)
    (w : World) : World × Option GoError :=
  let w := w.emit (.httpGet pc.DownloadURL)
  match env.Get pc.DownloadURL with
  | .error err => (w, some err)
  | .ok resp =>
    let filename := env.Join tempDir "template"
    let contentType := resp.ContentType
    let chosen : Except GoError (String × List String) :=
      if contentType = "application/x-gzip" then
        .ok (filename ++ ".tar.gz",
          ["tar", "-xzf", filename ++ ".tar.gz", "-C", pc.DestDir, "--strip-components=1"])
      else if contentType = "application/x-xz" then
        .ok (filename ++ ".tar.xz",
          ["tar", "-xJf", filename ++ ".tar.xz", "-C", pc.DestDir, "--strip-components=1"])
      else if contentType = "application/x-bzip2" then
        .ok (filename ++ ".tar.bz2",
          ["tar", "-xjf", filename ++ ".tar.bz2", "-C", pc.DestDir, "--strip-components=1"])
      else if contentType = "application/zip" then
        .error (.errorString ("unsupported file type: " ++ contentType ++
          " (zip does not support --strip-components, you should use a tarball)"))
      else
        .error (.errorString ("unsupported file type: " ++ contentType))
    match chosen with
    | .error err => (w, some err)
    | .ok (filename, extractCommands) =>
      let c := env.Create filename w.fs
      let w := (w.emit (.create filename)).withFs c.1
      match c.2 with
      | some err => (w, some err)
      | none =>
        let k := env.Copy filename resp.Body w.fs
        let w := (w.emit (.copy filename)).withFs k.1
        match k.2 with
        | some err => (w, some err)
        | none =>
          let m := env.MkdirAll pc.DestDir w.fs
          let w := (w.emit (.mkdirAll pc.DestDir)).withFs m.1
          match m.2 with
          | some err => (w, some err)
          | none =>
            let r := env.Run extractCommands w.fs
            ((w.emit (.run extractCommands)).withFs r.1, r.2)

/-- `downloadAndExtract` (projectcreator.go:176). -/
def downloadAndExtract (env : Env) (pc : ProjectCreator) (w : World) :
    World × Option GoError :=
  let w := w.emit .tempDir
  match env.TempDir w.fs with
  | .error err => (w, some err)
  | .ok (tempDir, fs) =>
    let r := downloadAndExtract.staged env pc tempDir (w.withFs fs)
    (((r.1).emit (.removeAll tempDir)).withFs (env.RemoveAll tempDir r.1.fs), r.2)

/-- `FetchTemplate` (projectcreator.go:125). -/
def FetchTemplate (env : Env) (pc : ProjectCreator) (w : World) :
    World × Option GoError :=
  if pc.GitRepository.URL ≠ "" then cloneRepository env pc w
  else if pc.ExistingDir ≠ "" then copyExistingDir env pc w
  else if pc.DownloadURL ≠ "" then downloadAndExtract env pc w
  else (w, some (.errorString "no template source provided"))

/-- The loop of `readTemplateConfig` over the candidate file names. -/
def readTemplateConfig.loop (env : Env) (directory : String) (fs : Node) :
    List String → Except GoError TemplateConfig
  | [] => .ok { Templates := [], Variables := [] }
  | configFile :: rest =>
    let configPath := env.Join directory configFile
    match Stat env fs configPath with
    | some _ =>
      match ReadFile env fs configPath with
      | .error err => .error err
      | .ok configData =>
        let u := env.yamlUnmarshalConfig configData
        match u.2 with
        | some err => .error err
        | none => .ok u.1
    | none => readTemplateConfig.loop env directory fs rest

/-- `readTemplateConfig` (projectcreator.go:241). -/
def readTemplateConfig (env : Env) (directory : String) (fs : Node) :
    Except GoError TemplateConfig :=
  readTemplateConfig.loop env directory fs [".gpc.yml", ".gpc.yaml"]

/-- The function literal that `processFilesAsTemplates` hands to
`filepath.Walk` (projectcreator.go:268-320), called on an entry that `Lstat`
found: the entry afterwards and the error returned.  `os.Create` empties the
file before the template is executed into it. -/
def processFilesAsTemplates.walkFn (env : Env) (vars : GoMap)
    (config : TemplateConfig) (path name : String) (info : Node) :
    Node × Option GoError :=
  match info with
  | .dir es =>
    if HasSuffix path "/.git" then (.dir es, some .SkipDir) else (.dir es, none)
  | .file content =>
    let shouldTemplate := config.Templates.any (fun templatePattern =>
      env.Match templatePattern name)
    if shouldTemplate then
      match env.readError path with
      | some err => (.file content, some err)
      | none =>
        match env.Parse name content with
        | some err => (.file content, some err)
        | none =>
          match env.createError path with
          | some err => (.file content, some err)
          | none =>
            let x := env.Execute name content vars
            (.file x.1, x.2)
    else (.file content, none)

mutual
/-- Go `filepath.walk` with the function literal of `processFilesAsTemplates`:
the subtree afterwards and the error returned. -/
def processFilesAsTemplates.walk (env : Env) (vars : GoMap)
    (config : TemplateConfig) (path name : String) : Node → Node × Option GoError
  | .file content =>
    processFilesAsTemplates.walkFn env vars config path name (.file content)
  | .dir es =>
    match (processFilesAsTemplates.walkFn env vars config path name (.dir es)).2 with
    | some err1 => (.dir es, some err1)
    | none =>
      let r := processFilesAsTemplates.walkNames env vars config path es
      (.dir r.1, r.2)
/-- The loop of `filepath.walk` over the names of a directory. -/
def processFilesAsTemplates.walkNames (env : Env) (vars : GoMap)
    (config : TemplateConfig) (path : String) :
    List (String × Node) → List (String × Node) × Option GoError
  | [] => ([], none)
  | (name, node) :: rest =>
    let filename := env.Join path name
    let r := processFilesAsTemplates.walk env vars config filename name node
    match r.2 with
    | some err =>
      if node.IsDir && err = .SkipDir then
        let t := processFilesAsTemplates.walkNames env vars config path rest
        ((name, r.1) :: t.1, t.2)
      else ((name, r.1) :: rest, some err)
    | none =>
      let t := processFilesAsTemplates.walkNames env vars config path rest
      ((name, r.1) :: t.1, t.2)
end

/-- `processFilesAsTemplates` (projectcreator.go:267), `filepath.Walk`
included. -/
def processFilesAsTemplates (env : Env) (directory : String) (vars : GoMap)
    (config : TemplateConfig) (w : World) : World × Option GoError :=
  match env.lookupPath directory with
  | none =>
    (w, some (.errorString ("lstat " ++ directory ++ ": no such file or directory")))
  | some names =>
    match w.fs.get names with
    | none =>
      (w, some (.errorString ("lstat " ++ directory ++ ": no such file or directory")))
    | some root =>
      let r := processFilesAsTemplates.walk env vars config directory
        (env.Base directory) root
      (w.withFs (w.fs.put names r.1), if r.2 = some .SkipDir then none else r.2)

/-- The destination check of `CreateProject` (projectcreator.go:52-68). -/
def CreateProject.destination (env : Env) (pc : ProjectCreator) (w : World) :
    World × Option GoError :=
  match Stat env w.fs pc.DestDir with
  | some _ =>
    if !pc.Overwrite then
      if pc.Prompt then
        let w := w.emit (.printOverwrite pc.DestDir)
        let s := Scanln w.stdin
        let w : World := { fs := w.fs, stdin := s.2, log := w.log ++ [.scanln s.1] }
        let input := s.1
        if input ≠ "y" && input ≠ "Y" then
          (w, some (.errorString "directory already exists"))
        else (w, none)
      else (w, some (.errorString "directory already exists"))
    else (w, none)
  | none => (w, none)

/-- One iteration of the loop of `CreateProject` over `config.Variables`
(projectcreator.go:91-112), on the map `pc.Data` and the world. -/
def CreateProject.iteration (prompt : Bool) (cliData : GoMap)
    (state : GoMap × World) (decl : Variables) : GoMap × World :=
  let Data := state.1
  let w := state.2
  match cliData.get decl.Name with
  | some val => (Data.set decl.Name val, w)
  | none =>
    if prompt then
      let w := w.emit (.printVariable decl)
      let s := Scanln w.stdin
      let w : World := { fs := w.fs, stdin := s.2, log := w.log ++ [.scanln s.1] }
      let input := s.1
      if input = "" then (Data.set decl.Name decl.Default, w)
      else (Data.set decl.Name (.str input), w)
    else (Data.set decl.Name decl.Default, w)

/-- The loop of `CreateProject` over `config.Variables`
(projectcreator.go:90-113), from the map and world it starts with. -/
def CreateProject.resolveVariables (prompt : Bool) (cliData : GoMap)
    (declared : List Variables) (Data : GoMap) (w : World) : GoMap × World :=
  declared.foldl (CreateProject.iteration prompt cliData) (Data, w)

/-- `CreateProject` (projectcreator.go:51): the receiver, the world and the
error afterwards. -/
def CreateProject (env : Env) (pc : ProjectCreator) (data : String) (w : World) :
    ProjectCreator × World × Option GoError :=
  match CreateProject.destination env pc w with
  | (w, some err) => (pc, w, some err)
  | (w, none) =>
    match parseData env data with
    | (_, some err) => (pc, w, some err)
    | (cliData, none) =>
      match FetchTemplate env pc w with
      | (w, some err) => (pc, w, some err)
      | (w, none) =>
        match readTemplateConfig env pc.DestDir w.fs with
        | .error err => (pc, w, some err)
        | .ok config =>
          let v := CreateProject.resolveVariables pc.Prompt cliData config.Variables [] w
          let pc : ProjectCreator :=
            { Prompt := pc.Prompt, GitRepository := pc.GitRepository,
              ExistingDir := pc.ExistingDir, DownloadURL := pc.DownloadURL,
              Data := v.1, DestDir := pc.DestDir, Overwrite := pc.Overwrite }
          let r := processFilesAsTemplates env pc.DestDir pc.Data config v.2
          (pc, r.1, r.2)

/-! ## Vocabulary of the properties -/

/-- What one iteration stores under the name of its variable. -/
def CreateProject.stored (prompt : Bool) (cliData : GoMap) (w : World)
    (decl : Variables) : Value :=
  match cliData.get decl.Name with
  | some val => val
  | none =>
    if prompt then
      if (Scanln w.stdin).1 = "" then decl.Default else .str (Scanln w.stdin).1
    else decl.Default

/-- The number of non-empty source fields among `GitRepository.URL`,
`ExistingDir` and `DownloadURL`. -/
def sourceCount (pc : ProjectCreator) : Nat :=
  (if pc.GitRepository.URL ≠ "" then 1 else 0) + (if pc.ExistingDir ≠ "" then 1 else 0) +
    (if pc.DownloadURL ≠ "" then 1 else 0)

/-- The first non-empty of `Branch`, `Tag`, `Commit`, in that order. -/
def checkoutReference (g : GitRepository) : Option String :=
  [g.Branch, g.Tag, g.Commit].find? (fun r => r ≠ "")

/-- The supported content types with the `tar` flag and the file extension the
source pairs with each. -/
def archiveKinds : List (String × String × String) :=
  [("application/x-gzip", "-xzf", ".tar.gz"),
   ("application/x-xz", "-xJf", ".tar.xz"),
   ("application/x-bzip2", "-xjf", ".tar.bz2")]

/-- The base name under which `filepath.Walk` reports the entry reached from the
root of the walk along `rel`: the last name of `rel`, and for the root itself
the name `rootName` that `Lstat` gives it. -/
def reportedName (rootName : String) (rel : List String) : String :=
  rel.getLastD rootName

/-! ## A concrete environment

One behaviour of the collaborators on small inputs, used to run the package at
concrete inputs.  Paths are slash-separated entry names. -/

/-- The slash-separated elements of a path, the current element carried along. -/
def demoSplit : List Char → List Char → List String
  | [], cur => [String.mk cur]
  | c :: rest, cur =>
    if c = Char.ofNat 47 then String.mk cur :: demoSplit rest []
    else demoSplit rest (cur ++ [c])

/-- The text of the demonstration template configuration file. -/
def demoConfigText : String :=
  "templates:\n- main.txt\nvariables:\n- name: Name\n  description: Who\n  default: World\n"

/-- The configuration that `demoConfigText` denotes. -/
def demoConfig : TemplateConfig :=
  { Templates := ["main.txt"],
    Variables := [{ Name := "Name", Description := "Who", Default := .str "World" }] }

/-- The text of a configuration file that declares the name `x` twice. -/
def demoTwiceText : String :=
  "variables:\n- name: x\n  description: first\n  default: 1\n" ++
    "- name: x\n  description: second\n  default: 2\n"

/-- The configuration that `demoTwiceText` denotes: the name `x` declared twice,
with two defaults. -/
def demoTwiceConfig : TemplateConfig :=
  { Templates := [],
    Variables := [{ Name := "x", Description := "first", Default := .int 1 },
                  { Name := "x", Description := "second", Default := .int 2 }] }

/-- The text of a configuration file that declares `A` and then `B`. -/
def demoPairText : String :=
  "variables:\n- name: A\n  description: first\n  default: a0\n" ++
    "- name: B\n  description: second\n  default: b0\n"

/-- The configuration that `demoPairText` denotes. -/
def demoPairConfig : TemplateConfig :=
  { Templates := [],
    Variables := [{ Name := "A", Description := "first", Default := .str "a0" },
                  { Name := "B", Description := "second", Default := .str "b0" }] }

/-- The content of the demonstration template file. -/
def demoTemplateText : String := "Hello \x7b\x7b.Name\x7d\x7d"

/-- A small environment: the decoders know a few texts, `Join` puts a slash
between its arguments, `Match` is equality (patterns without metacharacters),
external commands and directory operations succeed without touching the tree,
`CopyDirectory` adds the source tree under the destination name at the root, and
the template engine substitutes `Name` in `demoTemplateText`. -/
def demoEnv : Env where
  jsonUnmarshal := fun s m =>
    if s = "\x7b\"Name\":\"Ada\"\x7d" then ([("Name", .str "Ada")], none)
    else (m, some (.errorString "invalid character looking for beginning of value"))
  yamlUnmarshal := fun s m =>
    if s = "" then (m, none)
    else if s = "Name: Ada" then ([("Name", .str "Ada")], none)
    else if s = "Other: 1" then ([("Other", .int 1)], none)
    else (m, some (.errorString "yaml: unmarshal errors"))
  yamlUnmarshalConfig := fun s =>
    if s = demoConfigText then (demoConfig, none)
    else if s = demoTwiceText then (demoTwiceConfig, none)
    else if s = demoPairText then (demoPairConfig, none)
    else ({ Templates := [], Variables := [] }, some (.errorString "yaml: unmarshal errors"))
  Join := fun a b => a ++ "/" ++ b
  Match := fun pattern name => pattern = name
  lookupPath := fun path => if path = "" then none else some (demoSplit path.toList [])
  Base := fun path => (demoSplit path.toList []).getLastD ""
  readError := fun _ => none
  createError := fun _ => none
  TempDir := fun fs => .ok ("/tmp/template1", fs)
  RemoveAll := fun _ fs => fs
  Create := fun _ fs => (fs, none)
  Copy := fun _ _ fs => (fs, none)
  MkdirAll := fun _ fs => (fs, none)
  Get := fun url =>
    if url = "http://h/a.zip" then .ok { ContentType := "application/zip", Body := "PK" }
    else .ok { ContentType := "application/x-gzip", Body := "gz" }
  Run := fun _ fs => (fs, none)
  CopyDirectory := fun src dst _ fs =>
    match fs.get [src], fs with
    | some n, .dir es => (.dir (es ++ [(dst, n)]), none)
    | _, _ => (fs, some (.errorString "copy failed"))
  Parse := fun _ _ => none
  Execute := fun _ content vars =>
    if content = demoTemplateText then
      match vars.get "Name" with
      | some (.str v) => ("Hello " ++ v, none)
      | _ => ("Hello <no value>", none)
    else (content, none)

/-- A filesystem holding the template directory `tpl` of the scenarios. -/
def demoFs : Node :=
  .dir [("tpl", .dir [(".gpc.yml", .file demoConfigText),
                      ("main.txt", .file demoTemplateText),
                      ("notes.md", .file "Hello \x7b\x7b.Name\x7d\x7d too")])]

/-- A filesystem whose template directory `tpl` declares the name `x` twice. -/
def demoTwiceFs : Node :=
  .dir [("tpl", .dir [(".gpc.yml", .file demoTwiceText)])]

/-- A filesystem whose template directory `tpl` declares `A` and then `B`. -/
def demoPairFs : Node :=
  .dir [("tpl", .dir [(".gpc.yml", .file demoPairText)])]

/-- A filesystem in which the destination `out` already exists. -/
def demoTakenFs : Node :=
  .dir [("out", .dir [("keep.txt", .file "mine")])]

/-- A project from the existing directory `tpl` into `out`. -/
def demoPc (prompt : Bool) : ProjectCreator :=
  { Prompt := prompt, GitRepository := { URL := "", Branch := "", Tag := "", Commit := "" },
    ExistingDir := "tpl", DownloadURL := "", Data := [("old", .null)], DestDir := "out",
    Overwrite := false }

/-- A world with the given tree and standard input and an empty log. -/
def demoWorld (fs : Node) (stdin : String) : World :=
  { fs := fs, stdin := stdin.toList, log := [] }

/-- A project with both a repository URL and an existing directory. -/
def demoTwoSources : ProjectCreator :=
  { Prompt := false,
    GitRepository := { URL := "https://h/r.git", Branch := "", Tag := "v1", Commit := "abc" },
    ExistingDir := "tpl", DownloadURL := "", Data := [], DestDir := "out", Overwrite := false }

/-- A project that downloads from the given URL into `out`. -/
def demoDownload (url : String) : ProjectCreator :=
  { Prompt := false, GitRepository := { URL := "", Branch := "", Tag := "", Commit := "" },
    ExistingDir := "", DownloadURL := url, Data := [], DestDir := "out", Overwrite := false }

/-- A filesystem whose directory `out` holds a fetched template. -/
def demoOutFs : Node :=
  .dir [("out", .dir [(".gpc.yml", .file demoConfigText),
                      ("main.txt", .file demoTemplateText),
                      ("notes.md", .file "Hello \x7b\x7b.Name\x7d\x7d too")])]

/-! ## Maps -/

theorem GoMap.get_filter_ne (m : GoMap) (k key : String) (h : key ≠ k) :
    GoMap.get (m.filter (fun e => !decide (e.1 = k))) key = GoMap.get m key := by
  induction m with
  | nil => rfl
  | cons e rest ih =>
    obtain ⟨a, v⟩ := e
    by_cases ha : a = k
    · subst ha
      have hne : ¬ a = key := fun e => h e.symm
      simp [List.filter_cons, GoMap.get, hne, ih]
    · by_cases hk : a = key
      · subst hk
        simp [List.filter_cons, GoMap.get, ha]
      · simp [List.filter_cons, GoMap.get, ha, hk, ih]

theorem GoMap.get_set_self (m : GoMap) (k : String) (v : Value) :
    (m.set k v).get k = some v := by
  simp [GoMap.set, GoMap.get]

theorem GoMap.get_set_ne (m : GoMap) (k key : String) (v : Value) (h : key ≠ k) :
    (m.set k v).get key = m.get key := by
  have hne : ¬ k = key := fun e => h e.symm
  simp only [GoMap.set, GoMap.get, hne, if_false]
  exact GoMap.get_filter_ne m k key h

theorem GoMap.mem_keys_set (m : GoMap) (k key : String) (v : Value) :
    key ∈ (m.set k v).keys ↔ key = k ∨ key ∈ m.keys := by
  simp only [GoMap.set, GoMap.keys, List.map_cons, List.mem_cons, List.mem_map,
    List.mem_filter, Bool.not_eq_true', decide_eq_false_iff_not]
  constructor
  · rintro (h | ⟨e, ⟨he, _⟩, rfl⟩)
    · exact Or.inl h
    · exact Or.inr ⟨e, he, rfl⟩
  · rintro (h | ⟨e, he, rfl⟩)
    · exact Or.inl h
    · by_cases hk : e.1 = k
      · exact Or.inl hk
      · exact Or.inr ⟨e, ⟨he, hk⟩, rfl⟩

theorem GoMap.nodup_keys_set (m : GoMap) (k : String) (v : Value)
    (h : m.keys.Nodup) : (m.set k v).keys.Nodup := by
  simp only [GoMap.set, GoMap.keys, List.map_cons, List.nodup_cons, List.mem_map,
    List.mem_filter, Bool.not_eq_true', decide_eq_false_iff_not]
  refine ⟨?_, ?_⟩
  · rintro ⟨e, ⟨_, hne⟩, rfl⟩
    exact hne rfl
  · exact (List.Nodup.sublist (List.Sublist.map _ (List.filter_sublist m)) h)

theorem GoMap.get_isSome_iff (m : GoMap) (key : String) :
    (m.get key).isSome ↔ key ∈ m.keys := by
  induction m with
  | nil => simp [GoMap.get, GoMap.keys]
  | cons e rest ih =>
    obtain ⟨a, v⟩ := e
    by_cases ha : a = key
    · simp [GoMap.get, GoMap.keys, ha]
    · have hne : ¬ key = a := fun e => ha e.symm
      simp only [GoMap.get, ha, if_false, ih]
      simp [GoMap.keys, hne]

/-! ## The variable-resolution loop -/

theorem iteration_data (prompt : Bool) (cliData : GoMap) (state : GoMap × World)
    (decl : Variables) :
    (CreateProject.iteration prompt cliData state decl).1 =
      state.1.set decl.Name (CreateProject.stored prompt cliData state.2 decl) := by
  unfold CreateProject.iteration CreateProject.stored
  cases hget : cliData.get decl.Name with
  | some val => rfl
  | none =>
    cases prompt with
    | false => rfl
    | true =>
      by_cases hin : (Scanln state.2.stdin).1 = ""
      · simp [hin, World.emit]
      · simp [hin, World.emit]

theorem iteration_log (prompt : Bool) (cliData : GoMap) (state : GoMap × World)
    (decl : Variables) :
    ∃ new, (CreateProject.iteration prompt cliData state decl).2.log = state.2.log ++ new ∧
      ∀ d, Event.printVariable d ∈ new → d = decl ∧ cliData.get d.Name = none := by
  unfold CreateProject.iteration
  cases hget : cliData.get decl.Name with
  | some val => exact ⟨[], by simp, by simp⟩
  | none =>
    cases prompt with
    | false => exact ⟨[], by simp, by simp⟩
    | true =>
      refine ⟨[.printVariable decl, .scanln (Scanln state.2.stdin).1], ?_, ?_⟩
      · by_cases hin : (Scanln state.2.stdin).1 = ""
        · simp [hin, World.emit]
        · simp [hin, World.emit]
      · intro d hd
        simp only [List.mem_cons, Event.printVariable.injEq, List.mem_singleton,
          List.not_mem_nil, or_false] at hd
        rcases hd with h | h
        · subst h
          exact ⟨rfl, hget⟩
        · exact Event.noConfusion h

theorem resolveVariables_nil (prompt : Bool) (cliData Data : GoMap) (w : World) :
    CreateProject.resolveVariables prompt cliData [] Data w = (Data, w) := rfl

theorem resolveVariables_cons (prompt : Bool) (cliData Data : GoMap) (w : World)
    (decl : Variables) (rest : List Variables) :
    CreateProject.resolveVariables prompt cliData (decl :: rest) Data w =
      CreateProject.resolveVariables prompt cliData rest
        (CreateProject.iteration prompt cliData (Data, w) decl).1
        (CreateProject.iteration prompt cliData (Data, w) decl).2 := rfl

theorem resolveVariables_append (prompt : Bool) (cliData Data : GoMap) (w : World)
    (front back : List Variables) :
    CreateProject.resolveVariables prompt cliData (front ++ back) Data w =
      CreateProject.resolveVariables prompt cliData back
        (CreateProject.resolveVariables prompt cliData front Data w).1
        (CreateProject.resolveVariables prompt cliData front Data w).2 := by
  simp [CreateProject.resolveVariables, List.foldl_append]

theorem resolveVariables_mem_keys (prompt : Bool) (cliData : GoMap)
    (declared : List Variables) (Data : GoMap) (w : World) (key : String) :
    key ∈ (CreateProject.resolveVariables prompt cliData declared Data w).1.keys ↔
      key ∈ Data.keys ∨ ∃ d ∈ declared, d.Name = key := by
  induction declared generalizing Data w with
  | nil => simp [resolveVariables_nil]
  | cons decl rest ih =>
    rw [resolveVariables_cons, ih, iteration_data, GoMap.mem_keys_set]
    simp only [List.mem_cons, exists_eq_or_imp]
    constructor
    · rintro ((h | h) | h)
      · exact Or.inr (Or.inl h.symm)
      · exact Or.inl h
      · exact Or.inr (Or.inr h)
    · rintro (h | h | h)
      · exact Or.inl (Or.inr h)
      · exact Or.inl (Or.inl h.symm)
      · exact Or.inr h

theorem resolveVariables_nodup (prompt : Bool) (cliData : GoMap)
    (declared : List Variables) (Data : GoMap) (w : World) (h : Data.keys.Nodup) :
    (CreateProject.resolveVariables prompt cliData declared Data w).1.keys.Nodup := by
  induction declared generalizing Data w with
  | nil => simpa [resolveVariables_nil] using h
  | cons decl rest ih =>
    rw [resolveVariables_cons]
    apply ih
    rw [iteration_data]
    exact GoMap.nodup_keys_set _ _ _ h

theorem resolveVariables_get_other (prompt : Bool) (cliData : GoMap)
    (declared : List Variables) (Data : GoMap) (w : World) (key : String)
    (h : ∀ d ∈ declared, d.Name ≠ key) :
    (CreateProject.resolveVariables prompt cliData declared Data w).1.get key =
      Data.get key := by
  induction declared generalizing Data w with
  | nil => rfl
  | cons decl rest ih =>
    rw [resolveVariables_cons, ih _ _ (fun d hd => h d (List.mem_cons_of_mem _ hd)),
      iteration_data]
    exact GoMap.get_set_ne _ _ _ _ (fun e => h decl (List.mem_cons_self _ _) e.symm)

theorem resolveVariables_log (prompt : Bool) (cliData : GoMap)
    (declared : List Variables) (Data : GoMap) (w : World) :
    ∃ new, (CreateProject.resolveVariables prompt cliData declared Data w).2.log =
        w.log ++ new ∧
      ∀ d, Event.printVariable d ∈ new → d ∈ declared ∧ cliData.get d.Name = none := by
  induction declared generalizing Data w with
  | nil => exact ⟨[], by simp [resolveVariables_nil], by simp⟩
  | cons decl rest ih =>
    obtain ⟨n1, h1, p1⟩ := iteration_log prompt cliData (Data, w) decl
    obtain ⟨n2, h2, p2⟩ := ih (CreateProject.iteration prompt cliData (Data, w) decl).1
      (CreateProject.iteration prompt cliData (Data, w) decl).2
    refine ⟨n1 ++ n2, ?_, ?_⟩
    · rw [resolveVariables_cons, h2, h1, List.append_assoc]
    · intro d hd
      rcases List.mem_append.mp hd with h | h
      · obtain ⟨e, hn⟩ := p1 d h
        exact ⟨e ▸ List.mem_cons_self _ _, hn⟩
      · obtain ⟨hm, hn⟩ := p2 d h
        exact ⟨List.mem_cons_of_mem _ hm, hn⟩

/-- The value stored under a name is the one stored by the last declaration of
that name. -/
theorem resolveVariables_get_last (prompt : Bool) (cliData : GoMap)
    (front back : List Variables) (decl : Variables) (Data : GoMap) (w : World)
    (h : ∀ d ∈ back, d.Name ≠ decl.Name) :
    (CreateProject.resolveVariables prompt cliData (front ++ decl :: back) Data w).1.get
        decl.Name =
      some (CreateProject.stored prompt cliData
        (CreateProject.resolveVariables prompt cliData front Data w).2 decl) := by
  rw [resolveVariables_append, resolveVariables_cons,
    resolveVariables_get_other _ _ _ _ _ _ h, iteration_data]
  exact GoMap.get_set_self _ _ _

theorem stored_inline (prompt : Bool) (cliData : GoMap) (w : World) (decl : Variables)
    (val : Value) (hval : cliData.get decl.Name = some val) :
    CreateProject.stored prompt cliData w decl = val := by
  simp [CreateProject.stored, hval]

theorem resolveVariables_get_inline (prompt : Bool) (cliData : GoMap)
    (declared : List Variables) (Data : GoMap) (w : World) (key : String)
    (val : Value) (hmem : ∃ d ∈ declared, d.Name = key)
    (hval : cliData.get key = some val) :
    (CreateProject.resolveVariables prompt cliData declared Data w).1.get key =
      some val := by
  induction declared generalizing Data w with
  | nil =>
    obtain ⟨d, hd, _⟩ := hmem
    exact absurd hd (List.not_mem_nil _)
  | cons first rest ih =>
    rw [resolveVariables_cons]
    by_cases hlater : ∃ d ∈ rest, d.Name = key
    · exact ih _ _ hlater
    · have hfirst : first.Name = key := by
        obtain ⟨d, hd, hname⟩ := hmem
        rcases List.mem_cons.mp hd with h | h
        · exact h ▸ hname
        · exact absurd ⟨d, h, hname⟩ hlater
      have hnone : ∀ d ∈ rest, d.Name ≠ key := fun d hd e => hlater ⟨d, hd, e⟩
      rw [resolveVariables_get_other _ _ _ _ _ _ hnone, iteration_data, ← hfirst,
        GoMap.get_set_self, stored_inline _ _ _ _ val (hfirst ▸ hval)]

/-! ## The run as a whole -/

theorem processFilesAsTemplates_log (env : Env) (directory : String) (vars : GoMap)
    (config : TemplateConfig) (w : World) :
    (processFilesAsTemplates env directory vars config w).1.log = w.log := by
  unfold processFilesAsTemplates
  split
  · rfl
  · split
    · rfl
    · rfl

/-- A run whose first four steps succeed resolves the variables from the empty
map and then renders. -/
theorem CreateProject_of_steps (env : Env) (pc : ProjectCreator) (data : String)
    (w w0 w1 : World) (cliData : GoMap) (config : TemplateConfig)
    (hd : CreateProject.destination env pc w = (w0, none))
    (hp : parseData env data = (cliData, none))
    (hf : FetchTemplate env pc w0 = (w1, none))
    (hc : readTemplateConfig env pc.DestDir w1.fs = .ok config) :
    (CreateProject env pc data w).1.Data =
        (CreateProject.resolveVariables pc.Prompt cliData config.Variables [] w1).1 ∧
      (CreateProject env pc data w).2.1.log =
        (CreateProject.resolveVariables pc.Prompt cliData config.Variables [] w1).2.log ∧
      (CreateProject env pc data w).2.2 =
        (processFilesAsTemplates env pc.DestDir
          (CreateProject.resolveVariables pc.Prompt cliData config.Variables [] w1).1 config
          (CreateProject.resolveVariables pc.Prompt cliData config.Variables [] w1).2).2 := by
  simp only [CreateProject, hd, hp, hf, hc, processFilesAsTemplates_log, and_self]

/-- A run that returns no error went through its first four steps. -/
theorem CreateProject_steps_of_success (env : Env) (pc : ProjectCreator) (data : String)
    (w : World) (hok : (CreateProject env pc data w).2.2 = none) :
    ∃ w0 cliData w1 config,
      CreateProject.destination env pc w = (w0, none) ∧
      parseData env data = (cliData, none) ∧
      FetchTemplate env pc w0 = (w1, none) ∧
      readTemplateConfig env pc.DestDir w1.fs = .ok config := by
  unfold CreateProject at hok
  rcases hd : CreateProject.destination env pc w with ⟨w0, _ | e⟩
  · rcases hp : parseData env data with ⟨cliData, _ | e⟩
    · rcases hf : FetchTemplate env pc w0 with ⟨w1, _ | e⟩
      · rcases hc : readTemplateConfig env pc.DestDir w1.fs with e | config
        · simp [hd, hp, hf, hc] at hok
        · exact ⟨w0, cliData, w1, config, rfl, rfl, hf, hc⟩
      · simp [hd, hp, hf] at hok
    · simp [hd, hp] at hok
  · simp [hd] at hok

theorem downloadAndExtract_of_tempDir (env : Env) (pc : ProjectCreator) (w : World)
    (tempDir : String) (fs1 : Node) (hT : env.TempDir w.fs = .ok (tempDir, fs1)) :
    downloadAndExtract env pc w =
      ((((downloadAndExtract.staged env pc tempDir ((w.emit .tempDir).withFs fs1)).1).emit
          (.removeAll tempDir)).withFs
        (env.RemoveAll tempDir
          (downloadAndExtract.staged env pc tempDir ((w.emit .tempDir).withFs fs1)).1.fs),
       (downloadAndExtract.staged env pc tempDir ((w.emit .tempDir).withFs fs1)).2) := by
  unfold downloadAndExtract
  simp only [World.emit] at hT ⊢
  rw [hT]

theorem destination_world (env : Env) (pc : ProjectCreator) (w : World) :
    (CreateProject.destination env pc w).1.fs = w.fs ∧
    (∀ d, Event.printVariable d ∈ (CreateProject.destination env pc w).1.log →
      Event.printVariable d ∈ w.log) ∧
    (¬ ((Stat env w.fs pc.DestDir).isSome ∧ pc.Overwrite = false ∧ pc.Prompt = true) →
      (CreateProject.destination env pc w).1 = w) := by
  unfold CreateProject.destination
  cases hst : Stat env w.fs pc.DestDir with
  | none => simp
  | some info =>
    cases hov : pc.Overwrite with
    | true => simp
    | false =>
      cases hpr : pc.Prompt with
      | false => simp
      | true =>
        by_cases hin : ¬(Scanln w.stdin).1 = "y" ∧ ¬(Scanln w.stdin).1 = "Y"
        · simp [hin, World.emit]
        · simp [hin, World.emit]

theorem staged_prompts (env : Env) (pc : ProjectCreator) (tempDir : String) (w : World)
    (d : Variables)
    (h : Event.printVariable d ∈ (downloadAndExtract.staged env pc tempDir w).1.log) :
    Event.printVariable d ∈ w.log := by
  unfold downloadAndExtract.staged at h
  simp only [World.emit, World.withFs] at h
  repeat' split at h
  all_goals simp_all

theorem FetchTemplate_prompts (env : Env) (pc : ProjectCreator) (w : World) (d : Variables)
    (h : Event.printVariable d ∈ (FetchTemplate env pc w).1.log) :
    Event.printVariable d ∈ w.log := by
  unfold FetchTemplate at h
  split at h
  · simpa [cloneRepository, World.emit, World.withFs] using h
  · split at h
    · unfold copyExistingDir at h
      split at h
      · exact h
      · simpa [World.emit, World.withFs] using h
    · split at h
      · rcases hT : env.TempDir w.fs with e | ⟨tempDir, fs1⟩
        · have hfail : downloadAndExtract env pc w = (w.emit .tempDir, some e) := by
            simp [downloadAndExtract, World.emit, hT]
          rw [hfail] at h
          simpa [World.emit] using h
        · rw [downloadAndExtract_of_tempDir env pc w tempDir fs1 hT] at h
          have h2 : Event.printVariable d ∈
              (downloadAndExtract.staged env pc tempDir
                ((w.emit .tempDir).withFs fs1)).1.log := by
            simpa [World.emit, World.withFs] using h
          simpa [World.emit, World.withFs] using staged_prompts env pc _ _ d h2
      · exact h

/-- Every prompt for a variable in the log after a run whose first four steps
succeed was either there before the run or printed by the variable loop. -/
theorem CreateProject_prompts (env : Env) (pc : ProjectCreator) (data : String)
    (w w0 w1 : World) (cliData : GoMap) (config : TemplateConfig)
    (hd : CreateProject.destination env pc w = (w0, none))
    (hp : parseData env data = (cliData, none))
    (hf : FetchTemplate env pc w0 = (w1, none))
    (hc : readTemplateConfig env pc.DestDir w1.fs = .ok config) (d : Variables)
    (h : Event.printVariable d ∈ (CreateProject env pc data w).2.1.log) :
    Event.printVariable d ∈ w.log ∨ (d ∈ config.Variables ∧ cliData.get d.Name = none) := by
  obtain ⟨_, hlog, _⟩ := CreateProject_of_steps env pc data w w0 w1 cliData config hd hp hf hc
  obtain ⟨new, hnew, hprop⟩ := resolveVariables_log pc.Prompt cliData config.Variables [] w1
  rw [hlog, hnew] at h
  rcases List.mem_append.mp h with h1 | h2
  · left
    have hw1 : w1 = (FetchTemplate env pc w0).1 := by rw [hf]
    have hw0 : w0 = (CreateProject.destination env pc w).1 := by rw [hd]
    rw [hw1] at h1
    have h0 := FetchTemplate_prompts env pc w0 d h1
    rw [hw0] at h0
    exact (destination_world env pc w).2.1 d h0
  · exact Or.inr (hprop d h2)

/-! ## Variable resolution (C1, C2, C3, C10) -/

/-- C1: after a successful `CreateProject`, for the inline data `cliData` that
`parseData` returned and the configuration `config` that was read, every
declared variable whose name is a key of the inline data is bound in `pc.Data`
to the inline value, whatever the prompt flag, the standard input and the
declared default, and the run prints no prompt for a variable of that name (any
such prompt in the log was there before the run). -/
theorem C1_inline_data_overrides (env : Env) (pc : ProjectCreator) (data : String)
    (w : World) (hok : (CreateProject env pc data w).2.2 = none) :
    ∃ w0 cliData w1 config,
      CreateProject.destination env pc w = (w0, none) ∧
      parseData env data = (cliData, none) ∧
      FetchTemplate env pc w0 = (w1, none) ∧
      readTemplateConfig env pc.DestDir w1.fs = .ok config ∧
      ∀ decl ∈ config.Variables, ∀ val, cliData.get decl.Name = some val →
        (CreateProject env pc data w).1.Data.get decl.Name = some val ∧
        ∀ d, d.Name = decl.Name →
          Event.printVariable d ∈ (CreateProject env pc data w).2.1.log →
          Event.printVariable d ∈ w.log := by
  obtain ⟨w0, cliData, w1, config, hd, hp, hf, hc⟩ :=
    CreateProject_steps_of_success env pc data w hok
  obtain ⟨hdata, _, _⟩ := CreateProject_of_steps env pc data w w0 w1 cliData config hd hp hf hc
  refine ⟨w0, cliData, w1, config, hd, hp, hf, hc, ?_⟩
  intro decl hmem val hval
  refine ⟨?_, ?_⟩
  · rw [hdata]
    exact resolveVariables_get_inline _ _ _ _ _ _ val ⟨decl, hmem, rfl⟩ hval
  · intro d hname hin
    rcases CreateProject_prompts env pc data w w0 w1 cliData config hd hp hf hc d hin with h | h
    · exact h
    · have hnone := h.2
      rw [hname, hval] at hnone
      exact Option.noConfusion hnone

/-- C1 at a concrete run: the inline data `Name: Ada` against the default
`World`, with prompting on and `Bob` waiting on standard input. -/
theorem C1_inline_data_overrides_witness :
    (CreateProject demoEnv (demoPc true) "Name: Ada" (demoWorld demoFs "Bob\n")).2.2 = none ∧
    (CreateProject demoEnv (demoPc true) "Name: Ada" (demoWorld demoFs "Bob\n")).1.Data.get
      "Name" = some (.str "Ada") ∧
    ∃ w0 cliData w1 config,
      CreateProject.destination demoEnv (demoPc true) (demoWorld demoFs "Bob\n") = (w0, none) ∧
      parseData demoEnv "Name: Ada" = (cliData, none) ∧
      FetchTemplate demoEnv (demoPc true) w0 = (w1, none) ∧
      readTemplateConfig demoEnv (demoPc true).DestDir w1.fs = .ok config ∧
      ∀ decl ∈ config.Variables, ∀ val, cliData.get decl.Name = some val →
        (CreateProject demoEnv (demoPc true) "Name: Ada"
          (demoWorld demoFs "Bob\n")).1.Data.get decl.Name = some val ∧
        ∀ d, d.Name = decl.Name →
          Event.printVariable d ∈ (CreateProject demoEnv (demoPc true) "Name: Ada"
            (demoWorld demoFs "Bob\n")).2.1.log →
          Event.printVariable d ∈ (demoWorld demoFs "Bob\n").log :=
  ⟨by decide, by decide,
    C1_inline_data_overrides demoEnv (demoPc true) "Name: Ada" (demoWorld demoFs "Bob\n")
      (by decide)⟩

/-- C2 fails as stated: a configuration that declares `x` twice, with defaults 1
and 2; without inline data and without prompting the run succeeds and binds `x`
to 2, which is not the declared default of the first declaration. -/
theorem C2_counterexample :
    (CreateProject demoEnv (demoPc false) "" (demoWorld demoTwiceFs "")).2.2 = none ∧
    (demoPc false).Prompt = false ∧
    parseData demoEnv "" = ([], none) ∧
    readTemplateConfig demoEnv "out"
      (FetchTemplate demoEnv (demoPc false) (demoWorld demoTwiceFs "")).1.fs =
        .ok demoTwiceConfig ∧
    ({ Name := "x", Description := "first", Default := .int 1 } : Variables) ∈
      demoTwiceConfig.Variables ∧
    (CreateProject demoEnv (demoPc false) "" (demoWorld demoTwiceFs "")).1.Data.get "x" =
      some (.int 2) ∧
    (CreateProject demoEnv (demoPc false) "" (demoWorld demoTwiceFs "")).1.Data.get "x" ≠
      some (.int 1) :=
  ⟨by decide, by decide, by decide, rfl, by decide, by decide, by decide⟩

/-- C2 (amended): after a successful `CreateProject` with `Prompt` false, every
declared variable whose name is not a key of the inline data and is not declared
again later in `config.Variables` is bound in `pc.Data` to its declared
`Default`, the same value of the same type. -/
theorem C2_default_without_prompt (env : Env) (pc : ProjectCreator) (data : String)
    (w : World) (hprompt : pc.Prompt = false)
    (hok : (CreateProject env pc data w).2.2 = none) :
    ∃ w0 cliData w1 config,
      CreateProject.destination env pc w = (w0, none) ∧
      parseData env data = (cliData, none) ∧
      FetchTemplate env pc w0 = (w1, none) ∧
      readTemplateConfig env pc.DestDir w1.fs = .ok config ∧
      ∀ front decl back, config.Variables = front ++ decl :: back →
        cliData.get decl.Name = none → (∀ d ∈ back, d.Name ≠ decl.Name) →
        (CreateProject env pc data w).1.Data.get decl.Name = some decl.Default := by
  obtain ⟨w0, cliData, w1, config, hd, hp, hf, hc⟩ :=
    CreateProject_steps_of_success env pc data w hok
  obtain ⟨hdata, _, _⟩ := CreateProject_of_steps env pc data w w0 w1 cliData config hd hp hf hc
  refine ⟨w0, cliData, w1, config, hd, hp, hf, hc, ?_⟩
  intro front decl back hvars hnone hlast
  rw [hdata, hvars, resolveVariables_get_last _ _ _ _ _ _ _ hlast, hprompt]
  simp [CreateProject.stored, hnone]

/-- C2 (amended) at the scenario of the specification: no inline data, no
prompting, the variable `Name` with default `World`. -/
theorem C2_default_without_prompt_witness :
    (demoPc false).Prompt = false ∧
    (CreateProject demoEnv (demoPc false) "" (demoWorld demoFs "")).2.2 = none ∧
    (CreateProject demoEnv (demoPc false) "" (demoWorld demoFs "")).1.Data.get "Name" =
      some (.str "World") ∧
    ∃ w0 cliData w1 config,
      CreateProject.destination demoEnv (demoPc false) (demoWorld demoFs "") = (w0, none) ∧
      parseData demoEnv "" = (cliData, none) ∧
      FetchTemplate demoEnv (demoPc false) w0 = (w1, none) ∧
      readTemplateConfig demoEnv (demoPc false).DestDir w1.fs = .ok config ∧
      ∀ front decl back, config.Variables = front ++ decl :: back →
        cliData.get decl.Name = none → (∀ d ∈ back, d.Name ≠ decl.Name) →
        (CreateProject demoEnv (demoPc false) "" (demoWorld demoFs "")).1.Data.get decl.Name =
          some decl.Default :=
  ⟨by decide, by decide, by decide,
    C2_default_without_prompt demoEnv (demoPc false) "" (demoWorld demoFs "")
      (by decide) (by decide)⟩

/-- C3: when `CreateProject` reaches its variable loop (the destination check,
`parseData`, `FetchTemplate` and `readTemplateConfig` returned no error), the
keys of `pc.Data` afterwards are exactly the names declared in
`config.Variables`, each key occurs once and is bound to a value, whatever
`pc.Data` held before and whatever other keys the inline data has. -/
theorem C3_resolved_keys_are_declared_names (env : Env) (pc : ProjectCreator)
    (data : String) (w w0 w1 : World) (cliData : GoMap) (config : TemplateConfig)
    (hd : CreateProject.destination env pc w = (w0, none))
    (hp : parseData env data = (cliData, none))
    (hf : FetchTemplate env pc w0 = (w1, none))
    (hc : readTemplateConfig env pc.DestDir w1.fs = .ok config) :
    (∀ key, key ∈ (CreateProject env pc data w).1.Data.keys ↔
      ∃ d ∈ config.Variables, d.Name = key) ∧
    (CreateProject env pc data w).1.Data.keys.Nodup ∧
    (∀ key, ((CreateProject env pc data w).1.Data.get key).isSome ↔
      ∃ d ∈ config.Variables, d.Name = key) := by
  obtain ⟨hdata, _, _⟩ := CreateProject_of_steps env pc data w w0 w1 cliData config hd hp hf hc
  have hkeys : ∀ key, key ∈ (CreateProject env pc data w).1.Data.keys ↔
      ∃ d ∈ config.Variables, d.Name = key := by
    intro key
    rw [hdata, resolveVariables_mem_keys]
    simp [GoMap.keys]
  refine ⟨hkeys, ?_, ?_⟩
  · rw [hdata]
    exact resolveVariables_nodup _ _ _ _ _ (by simp [GoMap.keys])
  · intro key
    rw [GoMap.get_isSome_iff]
    exact hkeys key

/-- C3 at a concrete run: `pc.Data` holds the key `old` beforehand, the inline
data has the undeclared key `Other`, and afterwards the only key is `Name`. -/
theorem C3_resolved_keys_are_declared_names_witness :
    (CreateProject demoEnv (demoPc false) "Other: 1" (demoWorld demoFs "")).1.Data.keys =
      ["Name"] ∧
    (∀ key, key ∈ (CreateProject demoEnv (demoPc false) "Other: 1"
        (demoWorld demoFs "")).1.Data.keys ↔ ∃ d ∈ demoConfig.Variables, d.Name = key) ∧
    (CreateProject demoEnv (demoPc false) "Other: 1" (demoWorld demoFs "")).1.Data.keys.Nodup ∧
    (∀ key, ((CreateProject demoEnv (demoPc false) "Other: 1"
        (demoWorld demoFs "")).1.Data.get key).isSome ↔
      ∃ d ∈ demoConfig.Variables, d.Name = key) :=
  ⟨by decide,
    C3_resolved_keys_are_declared_names demoEnv (demoPc false) "Other: 1"
      (demoWorld demoFs "") (demoWorld demoFs "")
      (FetchTemplate demoEnv (demoPc false) (demoWorld demoFs "")).1
      [("Other", .int 1)] demoConfig (by decide) (by decide) (by decide) rfl⟩

/-- C10: the code at the failing inputs.  With prompting on and no inline data,
the line `John Smith` entered at the prompt for `Name` is stored as `John`, not
as the entered line: `fmt.Scanln(&input)` keeps the first word, reads one rune
past the blank and leaves `mith` unread.  With `A` and `B` declared and the
lines `John Smith` and the empty line entered, `A` is bound to `John` and `B`
to the leftover `mith`, although the line entered for `B` is empty and its
default is `b0`. -/
theorem C10_scanln_stores_first_word :
    (demoPc true).Prompt = true ∧
    parseData demoEnv "" = ([], none) ∧
    Scanln "John Smith\n".toList = ("John", "mith\n".toList) ∧
    (CreateProject demoEnv (demoPc true) "" (demoWorld demoFs "John Smith\n")).2.2 = none ∧
    (CreateProject demoEnv (demoPc true) "" (demoWorld demoFs "John Smith\n")).1.Data.get
      "Name" = some (.str "John") ∧
    (CreateProject demoEnv (demoPc true) "" (demoWorld demoFs "John Smith\n")).1.Data.get
      "Name" ≠ some (.str "John Smith") ∧
    readTemplateConfig demoEnv "out"
      (FetchTemplate demoEnv (demoPc true) (demoWorld demoPairFs "John Smith\n\n")).1.fs =
        .ok demoPairConfig ∧
    (CreateProject demoEnv (demoPc true) "" (demoWorld demoPairFs "John Smith\n\n")).2.2 =
      none ∧
    (CreateProject demoEnv (demoPc true) "" (demoWorld demoPairFs "John Smith\n\n")).1.Data.get
      "A" = some (.str "John") ∧
    (CreateProject demoEnv (demoPc true) "" (demoWorld demoPairFs "John Smith\n\n")).1.Data.get
      "B" = some (.str "mith") ∧
    (CreateProject demoEnv (demoPc true) "" (demoWorld demoPairFs "John Smith\n\n")).1.Data.get
      "B" ≠ some (.str "b0") ∧
    (CreateProject demoEnv (demoPc true) "" (demoWorld demoPairFs "John Smith\n\n")).2.1.stdin =
      "\n".toList :=
  ⟨by decide, by decide, by decide, by decide, by decide, by decide, rfl, by decide,
    by decide, by decide, by decide, by decide⟩

/-! ## Source selection (C4, C5) -/

/-- C4 fails as stated: with both `GitRepository.URL` and `ExistingDir` set,
`FetchTemplate` returns no error; it runs the clone. -/
theorem C4_counterexample :
    sourceCount demoTwoSources = 2 ∧
    (FetchTemplate demoEnv demoTwoSources (demoWorld demoFs "")).2 = none ∧
    (FetchTemplate demoEnv demoTwoSources (demoWorld demoFs "")).1.log =
      [.run ["git", "clone", "--branch", "v1", "https://h/r.git", "out"]] :=
  ⟨by decide, by decide, by decide⟩

/-- C4 (amended): `FetchTemplate` returns the error `no template source
provided`, leaving the world as it was, when all three source fields are empty;
otherwise it is the strategy of the first non-empty field in the order
`GitRepository.URL`, `ExistingDir`, `DownloadURL`, whatever the later fields
hold. -/
theorem C4_first_source_wins (env : Env) (pc : ProjectCreator) (w : World) :
    (sourceCount pc = 0 →
      FetchTemplate env pc w = (w, some (.errorString "no template source provided"))) ∧
    (pc.GitRepository.URL ≠ "" → FetchTemplate env pc w = cloneRepository env pc w) ∧
    (pc.GitRepository.URL = "" → pc.ExistingDir ≠ "" →
      FetchTemplate env pc w = copyExistingDir env pc w) ∧
    (pc.GitRepository.URL = "" → pc.ExistingDir = "" → pc.DownloadURL ≠ "" →
      FetchTemplate env pc w = downloadAndExtract env pc w) := by
  refine ⟨?_, ?_, ?_, ?_⟩
  · intro h
    unfold sourceCount at h
    by_cases h1 : pc.GitRepository.URL = ""
    · by_cases h2 : pc.ExistingDir = ""
      · by_cases h3 : pc.DownloadURL = ""
        · simp [FetchTemplate, h1, h2, h3]
        · simp [h1, h2, h3] at h
      · simp [h1, h2] at h
    · simp [h1] at h
  · intro h1
    simp [FetchTemplate, h1]
  · intro h1 h2
    simp [FetchTemplate, h1, h2]
  · intro h1 h2 h3
    simp [FetchTemplate, h1, h2, h3]

/-- C4 (amended) at concrete inputs: no source at all, and two sources. -/
theorem C4_first_source_wins_witness :
    (FetchTemplate demoEnv
        { Prompt := false, GitRepository := { URL := "", Branch := "", Tag := "", Commit := "" },
          ExistingDir := "", DownloadURL := "", Data := [], DestDir := "out",
          Overwrite := false }
        (demoWorld demoFs "") =
      (demoWorld demoFs "", some (.errorString "no template source provided"))) ∧
    FetchTemplate demoEnv demoTwoSources (demoWorld demoFs "") =
      cloneRepository demoEnv demoTwoSources (demoWorld demoFs "") :=
  ⟨(C4_first_source_wins demoEnv _ (demoWorld demoFs "")).1 (by decide),
    (C4_first_source_wins demoEnv demoTwoSources (demoWorld demoFs "")).2.1 (by decide)⟩

/-- C5: `cloneRepository` hands the external client the argument list `git`,
`clone`, then `--branch` and the first non-empty of `Branch`, `Tag`, `Commit`
when there is one, then the URL and the destination; with all three empty the
list is `git`, `clone`, URL, destination.  That one command is the only
interaction, and its result is what `cloneRepository` returns. -/
theorem C5_clone_arguments (env : Env) (pc : ProjectCreator) (w : World) :
    (cloneRepository env pc w).1.log =
      w.log ++ [.run (["git", "clone"] ++
        (match checkoutReference pc.GitRepository with
          | some r => ["--branch", r]
          | none => []) ++
        [pc.GitRepository.URL, pc.DestDir])] ∧
    (cloneRepository env pc w).2 =
      (env.Run (["git", "clone"] ++
        (match checkoutReference pc.GitRepository with
          | some r => ["--branch", r]
          | none => []) ++
        [pc.GitRepository.URL, pc.DestDir]) w.fs).2 ∧
    (pc.GitRepository.Branch = "" → pc.GitRepository.Tag = "" →
      pc.GitRepository.Commit = "" →
      (cloneRepository env pc w).1.log =
        w.log ++ [.run ["git", "clone", pc.GitRepository.URL, pc.DestDir]]) := by
  unfold cloneRepository checkoutReference
  by_cases h1 : pc.GitRepository.Branch = ""
  · by_cases h2 : pc.GitRepository.Tag = ""
    · by_cases h3 : pc.GitRepository.Commit = ""
      · simp [h1, h2, h3, World.emit, World.withFs]
      · simp [h1, h2, h3, World.emit, World.withFs, List.find?]
    · simp [h1, h2, World.emit, World.withFs, List.find?]
  · simp [h1, World.emit, World.withFs, List.find?]

/-- C5 at concrete inputs: a tag and a commit (the tag is passed), and no
reference at all. -/
theorem C5_clone_arguments_witness :
    (cloneRepository demoEnv demoTwoSources (demoWorld demoFs "")).1.log =
      [.run ["git", "clone", "--branch", "v1", "https://h/r.git", "out"]] ∧
    (cloneRepository demoEnv
        { Prompt := false,
          GitRepository := { URL := "https://h/r.git", Branch := "", Tag := "", Commit := "" },
          ExistingDir := "", DownloadURL := "", Data := [], DestDir := "out",
          Overwrite := false }
        (demoWorld demoFs "")).1.log =
      [] ++ [.run ["git", "clone", "https://h/r.git", "out"]] :=
  ⟨by decide, (C5_clone_arguments demoEnv _ (demoWorld demoFs "")).2.2 rfl rfl rfl⟩

/-! ## The destination check and the inline data (C7, C9) -/

/-- C7: when `DestDir` exists, `Overwrite` is false and `Prompt` is false,
`CreateProject` returns the error `directory already exists` for every data
string and every source, and the receiver (`pc.Data` included) and the world
(filesystem, standard input, log of interactions) are as before: nothing was
fetched, read, prompted or rendered. -/
theorem C7_destination_collision (env : Env) (pc : ProjectCreator) (data : String)
    (w : World) (info : Node) (hexists : Stat env w.fs pc.DestDir = some info)
    (hover : pc.Overwrite = false) (hprompt : pc.Prompt = false) :
    CreateProject env pc data w =
      (pc, w, some (.errorString "directory already exists")) := by
  simp [CreateProject, CreateProject.destination, hexists, hover, hprompt]

/-- C7 at the scenario of the specification: `out` exists, no overwrite, no
prompting. -/
theorem C7_destination_collision_witness :
    Stat demoEnv (demoWorld demoTakenFs "y\n").fs (demoPc false).DestDir =
      some (.dir [("keep.txt", .file "mine")]) ∧
    CreateProject demoEnv (demoPc false) "Name: Ada" (demoWorld demoTakenFs "y\n") =
      (demoPc false, demoWorld demoTakenFs "y\n",
        some (.errorString "directory already exists")) :=
  ⟨by decide,
    C7_destination_collision demoEnv (demoPc false) "Name: Ada" (demoWorld demoTakenFs "y\n")
      (.dir [("keep.txt", .file "mine")]) (by decide) (by decide) (by decide)⟩

/-- C9 fails as stated: with `DestDir` existing, `Overwrite` false and `Prompt`
true, a data string that both decoders reject makes `CreateProject` fail only
after the overwrite prompt was printed and a line was read. -/
theorem C9_counterexample :
    (demoEnv.jsonUnmarshal "[bad" []).2 ≠ none ∧
    (demoEnv.yamlUnmarshal "[bad" (demoEnv.jsonUnmarshal "[bad" []).1).2 ≠ none ∧
    (CreateProject demoEnv (demoPc true) "[bad" (demoWorld demoTakenFs "y\nz\n")).2.2 =
      some (.errorString "yaml: unmarshal errors") ∧
    (CreateProject demoEnv (demoPc true) "[bad" (demoWorld demoTakenFs "y\nz\n")).2.1.log =
      [.printOverwrite "out", .scanln "y"] ∧
    (CreateProject demoEnv (demoPc true) "[bad" (demoWorld demoTakenFs "y\nz\n")).2.1.stdin =
      "z\n".toList :=
  ⟨by decide, by decide, by decide, by decide, by decide⟩

theorem parseData_of_json (env : Env) (data : String)
    (h : (env.jsonUnmarshal data []).2 = none) :
    parseData env data = ((env.jsonUnmarshal data []).1, none) := by
  simp [parseData, h]

theorem parseData_of_yaml (env : Env) (data : String) (e : GoError)
    (h : (env.jsonUnmarshal data []).2 = some e)
    (hy : (env.yamlUnmarshal data (env.jsonUnmarshal data []).1).2 = none) :
    parseData env data = ((env.yamlUnmarshal data (env.jsonUnmarshal data []).1).1, none) := by
  simp [parseData, h, hy]

theorem parseData_of_neither (env : Env) (data : String) (e1 e2 : GoError)
    (h : (env.jsonUnmarshal data []).2 = some e1)
    (hy : (env.yamlUnmarshal data (env.jsonUnmarshal data []).1).2 = some e2) :
    parseData env data = ([], some e2) := by
  simp [parseData, h, hy]

theorem CreateProject_of_parse_error (env : Env) (pc : ProjectCreator) (data : String)
    (w : World) (e : GoError) (h : parseData env data = ([], some e)) :
    (CreateProject env pc data w).2.2 ≠ none ∧
    (CreateProject env pc data w).1 = pc ∧
    (CreateProject env pc data w).2.1 = (CreateProject.destination env pc w).1 := by
  unfold CreateProject
  rcases hd : CreateProject.destination env pc w with ⟨w0, _ | e0⟩
  · simp [h]
  · simp

/-- C9 (amended): for every receiver, world and data string that both decoders
reject, `CreateProject` returns an error, leaves the receiver as it was, and the
world it leaves is the one the destination check left: nothing is fetched and
no prompt for a variable is printed.  The destination check precedes parsing;
unless `DestDir` exists, `Overwrite` is false and `Prompt` is true, the world is
left as it was (no prompt, no line read).  `parseData` returns the map the JSON
decoder produced when that decoder accepts the string, otherwise the map the
YAML decoder produced when that one accepts, and an error exactly when both
reject. -/
theorem C9_malformed_data (env : Env) (pc : ProjectCreator) (data : String) (w : World) :
    ((env.jsonUnmarshal data []).2 = none →
      parseData env data = ((env.jsonUnmarshal data []).1, none)) ∧
    ((env.jsonUnmarshal data []).2 ≠ none →
      (env.yamlUnmarshal data (env.jsonUnmarshal data []).1).2 = none →
      parseData env data =
        ((env.yamlUnmarshal data (env.jsonUnmarshal data []).1).1, none)) ∧
    ((parseData env data).2 ≠ none ↔
      ((env.jsonUnmarshal data []).2 ≠ none ∧
        (env.yamlUnmarshal data (env.jsonUnmarshal data []).1).2 ≠ none)) ∧
    ((env.jsonUnmarshal data []).2 ≠ none →
      (env.yamlUnmarshal data (env.jsonUnmarshal data []).1).2 ≠ none →
      (CreateProject env pc data w).2.2 ≠ none ∧
      (CreateProject env pc data w).1 = pc ∧
      (CreateProject env pc data w).2.1 = (CreateProject.destination env pc w).1 ∧
      (CreateProject env pc data w).2.1.fs = w.fs ∧
      (∀ d, Event.printVariable d ∈ (CreateProject env pc data w).2.1.log →
        Event.printVariable d ∈ w.log) ∧
      (¬ ((Stat env w.fs pc.DestDir).isSome ∧ pc.Overwrite = false ∧ pc.Prompt = true) →
        (CreateProject env pc data w).2.1 = w)) := by
  refine ⟨parseData_of_json env data, ?_, ?_, ?_⟩
  · intro hj hy
    cases h : (env.jsonUnmarshal data []).2 with
    | none => exact absurd h hj
    | some e => exact parseData_of_yaml env data e h hy
  · cases h : (env.jsonUnmarshal data []).2 with
    | none => simp [parseData_of_json env data h]
    | some e =>
      cases hy : (env.yamlUnmarshal data (env.jsonUnmarshal data []).1).2 with
      | none => simp [parseData_of_yaml env data e h hy]
      | some e2 => simp [parseData_of_neither env data e e2 h hy]
  · intro hj hy
    cases h : (env.jsonUnmarshal data []).2 with
    | none => exact absurd h hj
    | some e =>
      cases hy2 : (env.yamlUnmarshal data (env.jsonUnmarshal data []).1).2 with
      | none => exact absurd hy2 hy
      | some e2 =>
        obtain ⟨h1, h2, h3⟩ :=
          CreateProject_of_parse_error env pc data w e2 (parseData_of_neither env data e e2 h hy2)
        obtain ⟨g1, g2, g3⟩ := destination_world env pc w
        refine ⟨h1, h2, h3, ?_, ?_, ?_⟩
        · rw [h3]
          exact g1
        · rw [h3]
          exact g2
        · rw [h3]
          exact g3

/-- C9 (amended) at concrete inputs: a data string both decoders reject, with
no existing destination, leaves the world untouched. -/
theorem C9_malformed_data_witness :
    (demoEnv.jsonUnmarshal "[bad" []).2 ≠ none ∧
    (demoEnv.yamlUnmarshal "[bad" (demoEnv.jsonUnmarshal "[bad" []).1).2 ≠ none ∧
    (CreateProject demoEnv (demoPc true) "[bad" (demoWorld demoFs "y\n")).2.2 ≠ none ∧
    (CreateProject demoEnv (demoPc true) "[bad" (demoWorld demoFs "y\n")).2.1 =
      demoWorld demoFs "y\n" :=
  ⟨by decide, by decide,
    ((C9_malformed_data demoEnv (demoPc true) "[bad" (demoWorld demoFs "y\n")).2.2.2
      (by decide) (by decide)).1,
    ((C9_malformed_data demoEnv (demoPc true) "[bad" (demoWorld demoFs "y\n")).2.2.2
      (by decide) (by decide)).2.2.2.2.2 (by decide)⟩

/-! ## Archive-format dispatch (C6) -/

theorem staged_unsupported (env : Env) (pc : ProjectCreator) (tempDir : String) (w : World)
    (resp : Response) (hG : env.Get pc.DownloadURL = .ok resp)
    (h1 : resp.ContentType ≠ "application/x-gzip")
    (h2 : resp.ContentType ≠ "application/x-xz")
    (h3 : resp.ContentType ≠ "application/x-bzip2") :
    (∃ rest, (downloadAndExtract.staged env pc tempDir w).2 =
      some (.errorString ("unsupported file type: " ++ resp.ContentType ++ rest))) ∧
    (downloadAndExtract.staged env pc tempDir w).1 = w.emit (.httpGet pc.DownloadURL) := by
  unfold downloadAndExtract.staged
  simp only [hG, h1, h2, h3, if_false]
  by_cases h4 : resp.ContentType = "application/zip"
  · simp only [h4, if_true]
    exact ⟨⟨_, rfl⟩, trivial⟩
  · simp only [h4, if_false]
    exact ⟨⟨"", by simp⟩, trivial⟩

theorem staged_supported (env : Env) (pc : ProjectCreator) (tempDir : String) (w : World)
    (resp : Response) (hG : env.Get pc.DownloadURL = .ok resp) (flag ext : String)
    (hk : (resp.ContentType, flag, ext) ∈ archiveKinds) (fs2 fs3 fs4 : Node)
    (hc : env.Create (env.Join tempDir "template" ++ ext) w.fs = (fs2, none))
    (hb : env.Copy (env.Join tempDir "template" ++ ext) resp.Body fs2 = (fs3, none))
    (hm : env.MkdirAll pc.DestDir fs3 = (fs4, none)) :
    (downloadAndExtract.staged env pc tempDir w).1.log =
      w.log ++ [.httpGet pc.DownloadURL, .create (env.Join tempDir "template" ++ ext),
        .copy (env.Join tempDir "template" ++ ext), .mkdirAll pc.DestDir,
        .run ["tar", flag, env.Join tempDir "template" ++ ext, "-C", pc.DestDir,
          "--strip-components=1"]] ∧
    (downloadAndExtract.staged env pc tempDir w).2 =
      (env.Run ["tar", flag, env.Join tempDir "template" ++ ext, "-C", pc.DestDir,
        "--strip-components=1"] fs4).2 := by
  unfold downloadAndExtract.staged
  simp only [archiveKinds, List.mem_cons, Prod.mk.injEq, List.mem_singleton,
    List.not_mem_nil, or_false] at hk
  rcases hk with ⟨hct, hf, he⟩ | ⟨hct, hf, he⟩ | ⟨hct, hf, he⟩
  · subst hf he
    simp [hG, hct, World.emit, World.withFs, hc, hb, hm]
  · subst hf he
    simp [hG, hct, World.emit, World.withFs, hc, hb, hm]
  · subst hf he
    simp [hG, hct, World.emit, World.withFs, hc, hb, hm]

/-- C6: once the response has arrived, every declared content type other than
the three supported ones (the zip type and the empty string included) makes
`downloadAndExtract` fail with a message that starts with
`unsupported file type: ` followed by the received type, and the only
interactions are the temporary directory, the transfer and the removal of the
temporary directory: no file is staged, the destination directory is not created
and no command is run.  For each supported type, once staging and the creation
of the destination succeed, the command run is `tar` with the matching flag, the
staged file, `-C`, `DestDir` and `--strip-components=1`. -/
theorem C6_archive_dispatch (env : Env) (pc : ProjectCreator) (w : World)
    (tempDir : String) (fs1 : Node) (resp : Response)
    (hT : env.TempDir w.fs = .ok (tempDir, fs1))
    (hG : env.Get pc.DownloadURL = .ok resp) :
    (resp.ContentType ≠ "application/x-gzip" → resp.ContentType ≠ "application/x-xz" →
      resp.ContentType ≠ "application/x-bzip2" →
      (∃ rest, (downloadAndExtract env pc w).2 =
        some (.errorString ("unsupported file type: " ++ resp.ContentType ++ rest))) ∧
      (downloadAndExtract env pc w).1.log =
        w.log ++ [.tempDir, .httpGet pc.DownloadURL, .removeAll tempDir] ∧
      (downloadAndExtract env pc w).1.fs = env.RemoveAll tempDir fs1) ∧
    (∀ flag ext, (resp.ContentType, flag, ext) ∈ archiveKinds →
      ∀ fs2 fs3 fs4,
        env.Create (env.Join tempDir "template" ++ ext) fs1 = (fs2, none) →
        env.Copy (env.Join tempDir "template" ++ ext) resp.Body fs2 = (fs3, none) →
        env.MkdirAll pc.DestDir fs3 = (fs4, none) →
        (downloadAndExtract env pc w).1.log =
          w.log ++ [.tempDir, .httpGet pc.DownloadURL,
            .create (env.Join tempDir "template" ++ ext),
            .copy (env.Join tempDir "template" ++ ext), .mkdirAll pc.DestDir,
            .run ["tar", flag, env.Join tempDir "template" ++ ext, "-C", pc.DestDir,
              "--strip-components=1"],
            .removeAll tempDir] ∧
        (downloadAndExtract env pc w).2 =
          (env.Run ["tar", flag, env.Join tempDir "template" ++ ext, "-C", pc.DestDir,
            "--strip-components=1"] fs4).2) := by
  rw [downloadAndExtract_of_tempDir env pc w tempDir fs1 hT]
  refine ⟨?_, ?_⟩
  · intro h1 h2 h3
    obtain ⟨he, hw⟩ := staged_unsupported env pc tempDir ((w.emit .tempDir).withFs fs1) resp
      hG h1 h2 h3
    refine ⟨he, ?_, ?_⟩
    · rw [hw]
      simp [World.emit, World.withFs]
    · rw [hw]
      simp [World.emit, World.withFs]
  · intro flag ext hk fs2 fs3 fs4 hc hb hm
    obtain ⟨hl, he⟩ := staged_supported env pc tempDir ((w.emit .tempDir).withFs fs1) resp
      hG flag ext hk fs2 fs3 fs4 hc hb hm
    refine ⟨?_, he⟩
    have hlog : ∀ (x : World) (e : Event) (fs : Node),
        ((x.emit e).withFs fs).log = x.log ++ [e] := fun _ _ _ => rfl
    rw [hlog, hl, hlog]
    simp

/-- C6 at the scenario of the specification (a zip content type) and at a
gzip download. -/
theorem C6_archive_dispatch_witness :
    (downloadAndExtract demoEnv (demoDownload "http://h/a.zip") (demoWorld demoFs "")).2 =
      some (.errorString ("unsupported file type: application/zip" ++
        " (zip does not support --strip-components, you should use a tarball)")) ∧
    (downloadAndExtract demoEnv (demoDownload "http://h/a.zip") (demoWorld demoFs "")).1.log =
      [] ++ [.tempDir, .httpGet "http://h/a.zip", .removeAll "/tmp/template1"] ∧
    (downloadAndExtract demoEnv (demoDownload "http://h/a.tgz") (demoWorld demoFs "")).1.log =
      [] ++ [.tempDir, .httpGet "http://h/a.tgz",
        .create ("/tmp/template1/template" ++ ".tar.gz"),
        .copy ("/tmp/template1/template" ++ ".tar.gz"), .mkdirAll "out",
        .run ["tar", "-xzf", "/tmp/template1/template" ++ ".tar.gz", "-C", "out",
          "--strip-components=1"],
        .removeAll "/tmp/template1"] :=
  ⟨by decide,
    ((C6_archive_dispatch demoEnv (demoDownload "http://h/a.zip") (demoWorld demoFs "")
      "/tmp/template1" demoFs { ContentType := "application/zip", Body := "PK" } rfl rfl).1
      (by decide) (by decide) (by decide)).2.1,
    ((C6_archive_dispatch demoEnv (demoDownload "http://h/a.tgz") (demoWorld demoFs "")
      "/tmp/template1" demoFs { ContentType := "application/x-gzip", Body := "gz" } rfl rfl).2
      "-xzf" ".tar.gz" (by decide) demoFs demoFs demoFs rfl rfl rfl).1⟩

/-! ## Trees -/

mutual
theorem Node.get_append (fs : Node) (names rel : List String) (root : Node)
    (h : fs.get names = some root) : fs.get (names ++ rel) = root.get rel := by
  match fs, names with
  | n, [] =>
    simp only [Node.get, Option.some.injEq] at h
    rw [List.nil_append, h]
  | .file _, _ :: _ => simp [Node.get] at h
  | .dir es, name :: rest =>
    simp only [Node.get, List.cons_append] at h ⊢
    exact Node.getEntries_append es name rest rel root h
theorem Node.getEntries_append (es : List (String × Node)) (name : String)
    (rest rel : List String) (root : Node)
    (h : Node.getEntries es name rest = some root) :
    Node.getEntries es name (rest ++ rel) = root.get rel := by
  match es with
  | [] => simp [Node.getEntries] at h
  | (k, n) :: more =>
    simp only [Node.getEntries] at h ⊢
    by_cases hk : k = name
    · simp only [hk, if_true] at h ⊢
      exact Node.get_append n rest rel root h
    · simp only [hk, if_false] at h ⊢
      exact Node.getEntries_append more name rest rel root h
end

mutual
theorem Node.get_put (fs : Node) (names : List String) (root new : Node)
    (h : fs.get names = some root) : (fs.put names new).get names = some new := by
  match fs, names with
  | n, [] => simp [Node.put, Node.get]
  | .file _, _ :: _ => simp [Node.get] at h
  | .dir es, name :: rest =>
    simp only [Node.get, Node.put] at h ⊢
    exact Node.getEntries_put es name rest root new h
theorem Node.getEntries_put (es : List (String × Node)) (name : String)
    (rest : List String) (root new : Node)
    (h : Node.getEntries es name rest = some root) :
    Node.getEntries (Node.putEntries es name rest new) name rest = some new := by
  match es with
  | [] => simp [Node.getEntries] at h
  | (k, n) :: more =>
    simp only [Node.getEntries, Node.putEntries] at h ⊢
    by_cases hk : k = name
    · simp only [hk, if_true, Node.getEntries] at h ⊢
      exact Node.get_put n rest root new h
    · simp only [hk, if_false, Node.getEntries] at h ⊢
      exact Node.getEntries_put more name rest root new h
end

mutual
theorem Node.put_get (fs : Node) (names : List String) (root : Node)
    (h : fs.get names = some root) : fs.put names root = fs := by
  match fs, names with
  | n, [] =>
    simp only [Node.get, Option.some.injEq] at h
    simp [Node.put, h]
  | .file _, _ :: _ => simp [Node.get] at h
  | .dir es, name :: rest =>
    simp only [Node.get, Node.put] at h ⊢
    rw [Node.putEntries_get es name rest root h]
theorem Node.putEntries_get (es : List (String × Node)) (name : String)
    (rest : List String) (root : Node)
    (h : Node.getEntries es name rest = some root) :
    Node.putEntries es name rest root = es := by
  match es with
  | [] => rfl
  | (k, n) :: more =>
    simp only [Node.getEntries, Node.putEntries] at h ⊢
    by_cases hk : k = name
    · simp only [hk, if_true] at h ⊢
      rw [Node.put_get n rest root h]
    · simp only [hk, if_false] at h ⊢
      rw [Node.putEntries_get more name rest root h]
end

/-! ## Rendering (C8) -/

theorem reportedName_cons (rootName name : String) (rest : List String) :
    reportedName rootName (name :: rest) = reportedName name rest := by
  cases rest with
  | nil => rfl
  | cons a t => rfl

theorem walkFn_unmatched (env : Env) (vars : GoMap) (config : TemplateConfig)
    (path name content : String)
    (h : ∀ pattern ∈ config.Templates, env.Match pattern name = false) :
    processFilesAsTemplates.walkFn env vars config path name (.file content) =
      (.file content, none) := by
  have hany : config.Templates.any (fun templatePattern =>
      env.Match templatePattern name) = false := by
    rw [List.any_eq_false]
    intro pattern hp
    simp [h pattern hp]
  simp [processFilesAsTemplates.walkFn, hany]

mutual
theorem walk_frame (env : Env) (vars : GoMap) (config : TemplateConfig)
    (path name : String) (node : Node) (rel : List String) (content : String)
    (hget : node.get rel = some (.file content))
    (hno : ∀ pattern ∈ config.Templates,
      env.Match pattern (reportedName name rel) = false) :
    (processFilesAsTemplates.walk env vars config path name node).1.get rel =
      some (.file content) := by
  match node, rel with
  | .file c, [] =>
    simp only [Node.get, Option.some.injEq, Node.file.injEq] at hget
    subst hget
    simp only [processFilesAsTemplates.walk]
    rw [walkFn_unmatched env vars config path name c hno]
    rfl
  | .file c, _ :: _ => simp [Node.get] at hget
  | .dir es, [] => simp [Node.get] at hget
  | .dir es, first :: rest =>
    simp only [processFilesAsTemplates.walk]
    rw [reportedName_cons] at hno
    simp only [Node.get] at hget
    split
    · simpa [Node.get] using hget
    · simp only [Node.get]
      exact walkNames_frame env vars config path es first rest content hget hno
theorem walkNames_frame (env : Env) (vars : GoMap) (config : TemplateConfig)
    (path : String) (es : List (String × Node)) (first : String) (rest : List String)
    (content : String)
    (hget : Node.getEntries es first rest = some (.file content))
    (hno : ∀ pattern ∈ config.Templates,
      env.Match pattern (reportedName first rest) = false) :
    Node.getEntries (processFilesAsTemplates.walkNames env vars config path es).1 first rest =
      some (.file content) := by
  match es with
  | [] => simp [Node.getEntries] at hget
  | (k, n) :: more =>
    simp only [processFilesAsTemplates.walkNames]
    simp only [Node.getEntries] at hget
    by_cases hk : k = first
    · subst hk
      simp only [if_true] at hget
      have hn := walk_frame env vars config (env.Join path k) k n rest content hget hno
      split
      · split
        · simp only [Node.getEntries, if_true]
          exact hn
        · simp only [Node.getEntries, if_true]
          exact hn
      · simp only [Node.getEntries, if_true]
        exact hn
    · simp only [hk, if_false] at hget
      have hm := walkNames_frame env vars config path more first rest content hget hno
      split
      · split
        · simp only [Node.getEntries, hk, if_false]
          exact hm
        · simp only [Node.getEntries, hk, if_false]
          exact hget
      · simp only [Node.getEntries, hk, if_false]
        exact hm
end

mutual
theorem walk_no_templates (env : Env) (vars : GoMap) (config : TemplateConfig)
    (path name : String) (node : Node) (h : config.Templates = []) :
    (processFilesAsTemplates.walk env vars config path name node).1 = node ∧
    ((processFilesAsTemplates.walk env vars config path name node).2 = none ∨
      ((processFilesAsTemplates.walk env vars config path name node).2 = some .SkipDir ∧
        node.IsDir = true)) := by
  match node with
  | .file c =>
    simp only [processFilesAsTemplates.walk]
    rw [walkFn_unmatched env vars config path name c (by simp [h])]
    exact ⟨rfl, Or.inl rfl⟩
  | .dir es =>
    simp only [processFilesAsTemplates.walk, processFilesAsTemplates.walkFn]
    by_cases hs : HasSuffix path "/.git" = true
    · simp [hs, Node.IsDir]
    · simp [hs, walkNames_no_templates env vars config path es h]
theorem walkNames_no_templates (env : Env) (vars : GoMap) (config : TemplateConfig)
    (path : String) (es : List (String × Node)) (h : config.Templates = []) :
    processFilesAsTemplates.walkNames env vars config path es = (es, none) := by
  match es with
  | [] => rfl
  | (k, n) :: more =>
    simp only [processFilesAsTemplates.walkNames]
    obtain ⟨h1, h2⟩ := walk_no_templates env vars config (env.Join path k) k n h
    have hm := walkNames_no_templates env vars config path more h
    rcases h2 with h2 | ⟨h2, h3⟩
    · simp [h1, h2, hm]
    · simp [h1, h2, h3, hm]
end

theorem processFilesAsTemplates_no_templates (env : Env) (directory : String)
    (vars : GoMap) (config : TemplateConfig) (w : World) (names : List String)
    (root : Node) (h : config.Templates = [])
    (hl : env.lookupPath directory = some names) (hg : w.fs.get names = some root) :
    processFilesAsTemplates env directory vars config w = (w, none) := by
  obtain ⟨h1, h2⟩ := walk_no_templates env vars config directory (env.Base directory) root h
  unfold processFilesAsTemplates
  simp only [hl, hg, h1, Node.put_get w.fs names root hg]
  rcases h2 with h2 | ⟨h2, _⟩
  · simp [h2, World.withFs]
  · simp [h2, World.withFs]

theorem readTemplateConfig_absent (env : Env) (directory : String) (fs : Node)
    (h1 : Stat env fs (env.Join directory ".gpc.yml") = none)
    (h2 : Stat env fs (env.Join directory ".gpc.yaml") = none) :
    readTemplateConfig env directory fs = .ok { Templates := [], Variables := [] } := by
  simp [readTemplateConfig, readTemplateConfig.loop, h1, h2]

/-- C8: `processFilesAsTemplates` on a directory that exists changes nothing but
the subtree of that directory, and inside it every file whose base name (as
`filepath.Walk` reports it) matches none of the patterns of `config.Templates`
has the same content afterwards, for every tree, every variable mapping and
every configuration and whether or not the walk returns an error; so only files
whose base name matches a pattern are rewritten.  A directory with neither
`.gpc.yml` nor `.gpc.yaml` makes `readTemplateConfig` return the empty
configuration, and with a configuration without templates the render step
returns no error and leaves the world as it was. -/
theorem C8_unmatched_files_unchanged (env : Env) (directory : String) (vars : GoMap)
    (config : TemplateConfig) (w : World) (names : List String) (root : Node)
    (hl : env.lookupPath directory = some names) (hg : w.fs.get names = some root) :
    (∃ root', (processFilesAsTemplates env directory vars config w).1.fs =
        w.fs.put names root') ∧
    (∀ rel content, w.fs.get (names ++ rel) = some (.file content) →
      (∀ pattern ∈ config.Templates,
        env.Match pattern (reportedName (env.Base directory) rel) = false) →
      (processFilesAsTemplates env directory vars config w).1.fs.get (names ++ rel) =
        some (.file content)) ∧
    (Stat env w.fs (env.Join directory ".gpc.yml") = none →
      Stat env w.fs (env.Join directory ".gpc.yaml") = none →
      readTemplateConfig env directory w.fs = .ok { Templates := [], Variables := [] } ∧
      processFilesAsTemplates env directory vars { Templates := [], Variables := [] } w =
        (w, none)) ∧
    (config.Templates = [] →
      processFilesAsTemplates env directory vars config w = (w, none)) := by
  have hfs : (processFilesAsTemplates env directory vars config w).1.fs =
      w.fs.put names (processFilesAsTemplates.walk env vars config directory
        (env.Base directory) root).1 := by
    simp [processFilesAsTemplates, hl, hg, World.withFs]
  refine ⟨⟨_, hfs⟩, ?_, ?_, ?_⟩
  · intro rel content hfile hno
    rw [Node.get_append w.fs names rel root hg] at hfile
    rw [hfs, Node.get_append _ names rel _ (Node.get_put w.fs names root _ hg)]
    exact walk_frame env vars config directory (env.Base directory) root rel content
      hfile hno
  · intro h1 h2
    exact ⟨readTemplateConfig_absent env directory w.fs h1 h2,
      processFilesAsTemplates_no_templates env directory vars _ w names root rfl hl hg⟩
  · intro h
    exact processFilesAsTemplates_no_templates env directory vars config w names root h hl hg

/-- C8 at a concrete tree: `main.txt` matches the pattern and is rewritten,
`notes.md` holds template syntax too, matches no pattern and keeps its content;
a directory without configuration file is left as it is. -/
theorem C8_unmatched_files_unchanged_witness :
    (processFilesAsTemplates demoEnv "out" [("Name", .str "Ada")] demoConfig
      (demoWorld demoOutFs "")).1.fs.get ["out", "main.txt"] = some (.file "Hello Ada") ∧
    (processFilesAsTemplates demoEnv "out" [("Name", .str "Ada")] demoConfig
      (demoWorld demoOutFs "")).1.fs.get (["out"] ++ ["notes.md"]) =
        some (.file "Hello \x7b\x7b.Name\x7d\x7d too") ∧
    readTemplateConfig demoEnv "out" (demoWorld demoTakenFs "").fs =
      .ok { Templates := [], Variables := [] } ∧
    processFilesAsTemplates demoEnv "out" [] { Templates := [], Variables := [] }
      (demoWorld demoTakenFs "") = (demoWorld demoTakenFs "", none) :=
  ⟨by decide,
    (C8_unmatched_files_unchanged demoEnv "out" [("Name", .str "Ada")] demoConfig
      (demoWorld demoOutFs "") ["out"] _ rfl rfl).2.1 ["notes.md"] _ rfl (by decide),
    ((C8_unmatched_files_unchanged demoEnv "out" [] demoConfig
      (demoWorld demoTakenFs "") ["out"] _ rfl rfl).2.2.1 rfl rfl).1,
    ((C8_unmatched_files_unchanged demoEnv "out" [] demoConfig
      (demoWorld demoTakenFs "") ["out"] _ rfl rfl).2.2.1 rfl rfl).2⟩

end Gpc
